import Mathlib

/-
Verification of the admin-auth / config-store layer of the SAP migration
admin suite (source: src/admin_auth.py, src/foundation_data/foundation_admin_panel.py,
src/payroll_data/payroll_admin_panel.py).

The Python code persists configuration as JSON documents written with
json.dump(data, f, indent=2) and read back with json.load(f).  We embed the
JSON value universe shallowly (JVal below), together with a serializer that
mirrors CPython's json.dump with indent=2 and its default ensure_ascii=True
escaping, and a fuel-indexed recogniser mirroring CPython's json.load
(py_scanner semantics: whitespace skipping, string escapes incl. surrogate
pairs, objects built by dict insertion so a duplicate key keeps the first
position and the last value).  Two deliberate, documented deviations from
CPython, neither observable on round trips of serialised documents:
floating-point literals are rejected rather than parsed (JVal carries exact
integers only; the admin panels never write floats through this layer's
claims), and an unpaired surrogate escape is rejected rather than kept as a
lone surrogate code unit (Lean strings cannot carry one).
-/

namespace AdminSuite

/-- The JSON value universe as CPython's json module produces it from dicts,
lists, strs, ints, bools and None (numbers restricted to exact integers). -/
inductive JVal where
  | null
  | bool (b : Bool)
  | num (n : Int)
  | str (s : String)
  | arr (items : List JVal)
  | obj (entries : List (String × JVal))

/- Node count of a JSON value, used as a fuel bound for the recogniser. -/
mutual
def jsize : JVal → Nat
  | .null => 1
  | .bool _ => 1
  | .num _ => 1
  | .str _ => 1
  | .arr l => 1 + jsizeL l
  | .obj l => 1 + jsizeE l
def jsizeL : List JVal → Nat
  | [] => 0
  | h :: t => 1 + jsize h + jsizeL t
def jsizeE : List (String × JVal) → Nat
  | [] => 0
  | e :: t => 1 + jsize e.2 + jsizeE t
end

/- Well-formedness: every object's key list is duplicate-free.  Exactly the
documents representable as Python dicts, i.e. everything json.dump can emit. -/
mutual
def jwf : JVal → Bool
  | .null => true
  | .bool _ => true
  | .num _ => true
  | .str _ => true
  | .arr l => jwfL l
  | .obj l => decide (List.Nodup (l.map Prod.fst)) && jwfE l
def jwfL : List JVal → Bool
  | [] => true
  | h :: t => jwf h && jwfL t
def jwfE : List (String × JVal) → Bool
  | [] => true
  | e :: t => jwf e.2 && jwfE t
end

/-- Python truthiness of a decoded JSON value (None, {}, [], "", 0 and False
are falsy), as tested by the restore loop's `and config_data` condition. -/
def truthy : JVal → Bool
  | .null => false
  | .bool b => b
  | .num n => decide (n ≠ 0)
  | .str s => !s.isEmpty
  | .arr l => !l.isEmpty
  | .obj l => !l.isEmpty

/-! ### Association lists

st.session_state and the on-disk config directory are both string-keyed
mutable maps; Python dict insertion keeps an existing key's position and
overwrites its value, which `alPut` reproduces. -/

/-- Lookup in an association list (leftmost binding). -/
def alGet {κ α : Type} [DecidableEq κ] (k : κ) : List (κ × α) → Option α
  | [] => none
  | e :: t => if e.1 = k then some e.2 else alGet k t

/-- Dict-style insert: overwrite in place if the key exists, else append. -/
def alPut {κ α : Type} [DecidableEq κ] (k : κ) (v : α) : List (κ × α) → List (κ × α)
  | [] => [(k, v)]
  | e :: t => if e.1 = k then (e.1, v) :: t else e :: alPut k v t

/-! ### Serialiser: CPython json.dump(value, f, indent=2), ensure_ascii=True -/

/-- The character for a decimal digit value. -/
def digitChar (n : Nat) : Char := Char.ofNat (48 + n)

/-- Lowercase hex digit character, as %04x formatting uses. -/
def hexDigitChar (n : Nat) : Char :=
  if n < 10 then Char.ofNat (48 + n) else Char.ofNat (87 + n)

/-- Four lowercase hex digits of a code unit below 0x10000. -/
def hex4 (n : Nat) : List Char :=
  [hexDigitChar (n / 4096 % 16), hexDigitChar (n / 256 % 16),
   hexDigitChar (n / 16 % 16), hexDigitChar (n % 16)]

/-- json.encoder's ensure_ascii escaping of one character: backslash and
quote escaped, the five short escapes, printable ASCII kept, everything else
as \uXXXX (a surrogate pair above 0xFFFF). -/
def escapeChar (c : Char) : List Char :=
  if c = '"' then ['\\', '"']
  else if c = '\\' then ['\\', '\\']
  else if c.toNat = 8 then ['\\', 'b']
  else if c.toNat = 9 then ['\\', 't']
  else if c.toNat = 10 then ['\\', 'n']
  else if c.toNat = 12 then ['\\', 'f']
  else if c.toNat = 13 then ['\\', 'r']
  else if 32 ≤ c.toNat ∧ c.toNat ≤ 126 then [c]
  else if c.toNat < 65536 then '\\' :: 'u' :: hex4 c.toNat
  else
    ('\\' :: 'u' :: hex4 (55296 + (c.toNat - 65536) / 1024)) ++
    ('\\' :: 'u' :: hex4 (56320 + (c.toNat - 65536) % 1024))

/-- Escape a whole character sequence. -/
def escapeList : List Char → List Char
  | [] => []
  | c :: t => escapeChar c ++ escapeList t

/-- A serialised JSON string: quote, escaped body, quote. -/
def serStr (s : String) : List Char := '"' :: (escapeList s.data ++ ['"'])

/-- Decimal digit characters, least significant digit pushed onto `acc`
first; structural on a fuel argument so that it reduces definitionally
(any fuel above the value itself is enough). -/
def natToCharsAux : Nat → Nat → List Char → List Char
  | 0, _, acc => acc
  | fuel + 1, n, acc =>
    if n < 10 then digitChar n :: acc
    else natToCharsAux fuel (n / 10) (digitChar (n % 10) :: acc)

/-- Decimal digit characters of a natural number, most significant first. -/
def natToChars (n : Nat) : List Char := natToCharsAux (n + 1) n []

/-- repr of a Python int: optional minus sign then decimal digits. -/
def serInt (n : Int) : List Char :=
  if n < 0 then '-' :: natToChars n.natAbs else natToChars n.toNat

/-- The indentation run json.dump emits: `n` space characters. -/
def spaces (n : Nat) : List Char := List.replicate n ' '

/- Serialise a value at indentation level `ind`, matching
json.dump(..., indent=2): containers put each item on its own line indented
by `2*(ind+1)` spaces and close on a line indented by `2*ind` spaces; the
item separator is a bare comma before the newline and the key separator is
a colon and one space. -/
mutual
def serVal (ind : Nat) : JVal → List Char
  | .null => "null".data
  | .bool true => "true".data
  | .bool false => "false".data
  | .num n => serInt n
  | .str s => serStr s
  | .arr [] => ['[', ']']
  | .arr (h :: t) =>
      '[' :: '\n' :: (spaces (2 * (ind + 1)) ++ serVal (ind + 1) h ++
        serArrTail (ind + 1) t ++ '\n' :: (spaces (2 * ind) ++ [']']))
  | .obj [] => ['\x7b', '\x7d']
  | .obj (e :: t) =>
      '\x7b' :: '\n' :: (spaces (2 * (ind + 1)) ++ serStr e.1 ++ ':' :: ' ' ::
        (serVal (ind + 1) e.2 ++ serObjTail (ind + 1) t ++
         '\n' :: (spaces (2 * ind) ++ ['\x7d'])))
def serArrTail (ind : Nat) : List JVal → List Char
  | [] => []
  | h :: t => ',' :: '\n' :: (spaces (2 * ind) ++ serVal ind h ++ serArrTail ind t)
def serObjTail (ind : Nat) : List (String × JVal) → List Char
  | [] => []
  | e :: t =>
      ',' :: '\n' :: (spaces (2 * ind) ++ serStr e.1 ++ ':' :: ' ' ::
        (serVal ind e.2 ++ serObjTail ind t))
end

/-! ### Recogniser: CPython json.load -/

/-- The whitespace set of json.decoder (space, tab, newline, carriage return). -/
def isWsChar (c : Char) : Bool :=
  c = ' ' || c = '\t' || c = '\n' || c = '\r'

def isDigitChar (c : Char) : Bool :=
  decide (48 ≤ c.toNat) && decide (c.toNat ≤ 57)

def digitVal (c : Char) : Nat := c.toNat - 48

/-- Drop leading whitespace, as the decoder's WHITESPACE regex does. -/
def skipWs : List Char → List Char
  | [] => []
  | c :: t => if isWsChar c then skipWs t else c :: t

/-- Match an exact literal tail (the decoder compares raw slices, so `null`
followed by any character at all is accepted as the literal). -/
def dropLit : List Char → List Char → Option (List Char)
  | [], cs => some cs
  | _ :: _, [] => none
  | l :: lt, c :: cs => if c = l then dropLit lt cs else none

/-- Hex digit value, both cases accepted as in the \uXXXX decoder. -/
def hexVal (c : Char) : Option Nat :=
  if 48 ≤ c.toNat ∧ c.toNat ≤ 57 then some (c.toNat - 48)
  else if 97 ≤ c.toNat ∧ c.toNat ≤ 102 then some (c.toNat - 87)
  else if 65 ≤ c.toNat ∧ c.toNat ≤ 70 then some (c.toNat - 55)
  else none

/-- A scalar value as a Char, if it is a valid unicode scalar. -/
def mkChar (n : Nat) : Option Char :=
  if _h : n.isValidChar then some (Char.ofNat n) else none

/-- Combined value of four hex digit characters. -/
def hex4Val (a b c d : Char) : Option Nat :=
  match hexVal a, hexVal b, hexVal c, hexVal d with
  | some va, some vb, some vc, some vd =>
      some (((va * 16 + vb) * 16 + vc) * 16 + vd)
  | _, _, _, _ => none

/-- The \uXXXX escape logic of py_scanstring: four hex digits give a code
unit; a high surrogate must be followed immediately by a \uXXXX low
surrogate (decoded by `lowSurrogate`) and the pair combines into one
character.  Returns the decoded character and the input remaining after the
escape. -/
def lowSurrogate (n : Nat) : List Char → Option (Char × List Char)
  | '\\' :: 'u' :: a2 :: b2 :: c3 :: d2 :: rest3 =>
    (hex4Val a2 b2 c3 d2).bind (fun m =>
      if 56320 ≤ m ∧ m ≤ 57343 then
        (mkChar (65536 + (n - 55296) * 1024 + (m - 56320))).map
          (fun ch => (ch, rest3))
      else none)
  | _ => none

def uEscDecode (a b c2 d : Char) (rest2 : List Char) : Option (Char × List Char) :=
  (hex4Val a b c2 d).bind (fun n =>
    if 55296 ≤ n ∧ n ≤ 56319 then lowSurrogate n rest2
    else (mkChar n).map (fun ch => (ch, rest2)))

/-- One step of py_scanstring on input `cs` with reversed accumulator `acc`:
either the string is finished (`Sum.inl`: value and remaining input), or one
character was decoded (`Sum.inr`: new accumulator and remaining input), or
the input is malformed (`none`).  Closing quote ends the scan, escapes are
decoded via `uEscDecode`, raw control characters below 0x20 are rejected
(strict mode). -/
def strStep (acc cs : List Char) :
    Option ((String × List Char) ⊕ (List Char × List Char)) :=
  match cs with
  | [] => none
  | c :: rest =>
    if c = '"' then some (.inl (String.mk acc.reverse, rest))
    else if c = '\\' then
      match rest with
      | [] => none
      | e :: rest2 =>
        if e = 'u' then
          match rest2 with
          | a :: b :: c2 :: d :: rest3 =>
            (uEscDecode a b c2 d rest3).map (fun p => .inr (p.1 :: acc, p.2))
          | _ => none
        else if e = '"' then some (.inr ('"' :: acc, rest2))
        else if e = '\\' then some (.inr ('\\' :: acc, rest2))
        else if e = '/' then some (.inr ('/' :: acc, rest2))
        else if e = 'b' then some (.inr ('\x08' :: acc, rest2))
        else if e = 'f' then some (.inr ('\x0c' :: acc, rest2))
        else if e = 'n' then some (.inr ('\n' :: acc, rest2))
        else if e = 'r' then some (.inr ('\x0d' :: acc, rest2))
        else if e = 't' then some (.inr ('\t' :: acc, rest2))
        else none
    else if c.toNat < 32 then none
    else some (.inr (c :: acc, rest))

/-- The string-body scan loop: one unit of fuel per step, so any fuel above
the input length is enough; fuel is structural-recursion bookkeeping, not
part of the modelled semantics. -/
def parseStrAux : Nat → List Char → List Char → Option (String × List Char)
  | 0, _, _ => none
  | fuel + 1, acc, cs =>
    match strStep acc cs with
    | some (.inl r) => some r
    | some (.inr p) => parseStrAux fuel p.1 p.2
    | none => none

/-- Scan a string body with always-sufficient fuel (the scanner consumes at
least one input character per step). -/
def parseStrTop (cs : List Char) : Option (String × List Char) :=
  parseStrAux (cs.length + 1) [] cs

/-- Greedy decimal digit run folded into an accumulator. -/
def digitsAcc (acc : Nat) : List Char → Nat × List Char
  | [] => (acc, [])
  | c :: t => if isDigitChar c then digitsAcc (acc * 10 + digitVal c) t else (acc, c :: t)

/-- Reject a fraction or exponent continuation: the NUMBER_RE of the decoder
would read a float there, which this integer-only embedding does not model. -/
def numFinish (n : Nat) : List Char → Option (Nat × List Char)
  | [] => some (n, [])
  | c :: t =>
    if c = '.' ∨ c = 'e' ∨ c = 'E' then none else some (n, c :: t)

/-- The integer part per NUMBER_RE, `0|[1-9][0-9]*`: a leading zero is the
whole integer part. -/
def parseNumCore : List Char → Option (Nat × List Char)
  | [] => none
  | c :: t =>
    if c = '0' then numFinish 0 t
    else if isDigitChar c then
      match digitsAcc (digitVal c) t with
      | (n, r) => numFinish n r
    else none

/- The value scanner (fuel-indexed; every recursive call decrements, so
fuel ≥ node count of the encoded value suffices).  Follows py_make_scanner:
a value is dispatched on its first character; arrays and objects skip
whitespace around items; objects are built by dict insertion (`alPut`). -/
mutual
def parseValue : Nat → List Char → Option (JVal × List Char)
  | 0, _ => none
  | fuel + 1, cs =>
    match cs with
    | [] => none
    | c :: rest =>
      if c = '"' then
        match parseStrTop rest with
        | some (s, r) => some (.str s, r)
        | none => none
      else if c = '[' then
        match skipWs rest with
        | [] => none
        | c2 :: r2 =>
          if c2 = ']' then some (.arr [], r2)
          else
            match parseValue fuel (c2 :: r2) with
            | some (v, r3) => parseArrLoop fuel [v] r3
            | none => none
      else if c = '\x7b' then
        match skipWs rest with
        | [] => none
        | c2 :: r2 =>
          if c2 = '\x7d' then some (.obj [], r2)
          else if c2 = '"' then
            match parseStrTop r2 with
            | some (k, r3) =>
              (match skipWs r3 with
               | [] => none
               | c4 :: r4 =>
                 if c4 = ':' then
                   match parseValue fuel (skipWs r4) with
                   | some (v, r5) => parseObjLoop fuel (alPut k v []) r5
                   | none => none
                 else none)
            | none => none
          else none
      else if c = '-' then
        match parseNumCore rest with
        | some (n, r) => some (.num (-(n : Int)), r)
        | none => none
      else if isDigitChar c then
        match parseNumCore (c :: rest) with
        | some (n, r) => some (.num (n : Int), r)
        | none => none
      else if c = 'n' then
        match dropLit ['u', 'l', 'l'] rest with
        | some r => some (.null, r)
        | none => none
      else if c = 't' then
        match dropLit ['r', 'u', 'e'] rest with
        | some r => some (.bool true, r)
        | none => none
      else if c = 'f' then
        match dropLit ['a', 'l', 's', 'e'] rest with
        | some r => some (.bool false, r)
        | none => none
      else none
def parseArrLoop : Nat → List JVal → List Char → Option (JVal × List Char)
  | 0, _, _ => none
  | fuel + 1, acc, cs =>
    match skipWs cs with
    | [] => none
    | c :: r =>
      if c = ']' then some (.arr acc, r)
      else if c = ',' then
        match parseValue fuel (skipWs r) with
        | some (v, r2) => parseArrLoop fuel (acc ++ [v]) r2
        | none => none
      else none
def parseObjLoop : Nat → List (String × JVal) → List Char → Option (JVal × List Char)
  | 0, _, _ => none
  | fuel + 1, acc, cs =>
    match skipWs cs with
    | [] => none
    | c :: r =>
      if c = '\x7d' then some (.obj acc, r)
      else if c = ',' then
        match skipWs r with
        | [] => none
        | c2 :: r2 =>
          if c2 = '"' then
            match parseStrTop r2 with
            | some (k, r3) =>
              (match skipWs r3 with
               | [] => none
               | c4 :: r4 =>
                 if c4 = ':' then
                   match parseValue fuel (skipWs r4) with
                   | some (v, r5) => parseObjLoop fuel (alPut k v acc) r5
                   | none => none
                 else none)
            | none => none
          else none
      else none
end

/-- json.load of a whole document: skip leading whitespace, scan one value,
require only whitespace to remain.  The fuel `length + 1` dominates the node
count of any value the input can encode. -/
def jparse (cs : List Char) : Option JVal :=
  match parseValue (cs.length + 1) (skipWs cs) with
  | some (v, r) => if skipWs r = [] then some v else none
  | none => none

/-- A continuation the NUMBER_RE cannot absorb: empty, or headed by a
character that is neither a digit nor '.', 'e', 'E'. -/
def numSafe : List Char → Bool
  | [] => true
  | c :: _ => !(isDigitChar c || c = '.' || c = 'e' || c = 'E')

/- Branch views of the value scanner: each of the following definitions
restates one inline branch of `parseValue` / `parseObjLoop` verbatim, so
the corresponding step lemma below holds by `rfl`.  They add no semantics
of their own. -/

/-- The array branch of `parseValue` after the opening bracket, applied to
the whitespace-stripped remainder. -/
def arrStart (f : Nat) : List Char → Option (JVal × List Char)
  | [] => none
  | c2 :: r2 =>
    if c2 = ']' then some (.arr [], r2)
    else match parseValue f (c2 :: r2) with
         | some (v, r3) => parseArrLoop f [v] r3
         | none => none

/-- The object branches of `parseValue` / `parseObjLoop` after a key has
been scanned: expect a colon, scan the value, continue the member loop. -/
def objCont (f : Nat) (acc : List (String × JVal)) (res : Option (String × List Char)) :
    Option (JVal × List Char) :=
  match res with
  | some (k, r3) =>
    (match skipWs r3 with
     | [] => none
     | c4 :: r4 =>
       if c4 = ':' then
         match parseValue f (skipWs r4) with
         | some (v, r5) => parseObjLoop f (alPut k v acc) r5
         | none => none
       else none)
  | none => none

/-- The object branch of `parseValue` after the opening brace, applied to
the whitespace-stripped remainder. -/
def objStart (f : Nat) : List Char → Option (JVal × List Char)
  | [] => none
  | c2 :: r2 =>
    if c2 = '\x7d' then some (.obj [], r2)
    else if c2 = '"' then objCont f [] (parseStrTop r2)
    else none

/-- The member branch of `parseObjLoop` after the comma, applied to the
whitespace-stripped remainder. -/
def objKey (f : Nat) (acc : List (String × JVal)) : List Char → Option (JVal × List Char)
  | [] => none
  | c2 :: r2 =>
    if c2 = '"' then objCont f acc (parseStrTop r2)
    else none

/-! ### Config store (save_*_config / load_*_config of the two admin panels)

The on-disk state is a map from (directory, file name) to file content.
`save_*_config` writes `os.path.join(CONFIG_DIR, f"(config_type)_config.json")`
inside try/except: the file is opened with mode "w" (truncating), json.dump
streams the serialisation into it, and st.success / st.error report the
outcome; the functions end without a return statement, so the Python call
evaluates to None either way.  An exception inside the try block is
represented by a `SaveFault` argument: `openFail` (open itself fails, file
untouched), or `writeFail k` (the write fails after `k` characters reached
the file, which the "w" mode had already truncated). -/

/-- A file system: (directory, file name) keyed file contents. -/
abbrev FS := List ((String × String) × List Char)

/-- The deterministic per-category file name, f"(config_type)_config.json". -/
def configFileName (config_type : String) : String := config_type ++ "_config.json"

/-- Which exception, if any, the try block of a save raises. -/
inductive SaveFault where
  | ok
  | openFail
  | writeFail (written : Nat)

/-- Observable outcome of one save call: resulting file system, whether
st.success fired, whether st.error fired, and the call's Python return value. -/
structure SaveResult where
  fs : FS
  success_msg : Bool
  error_msg : Bool
  ret : Option JVal

/-- The try block of save_*_config: open(config_path, "w") then
json.dump(config_data, f, indent=2).  Returns the file system it leaves
behind together with the exception it raises, if any. -/
def saveBody (dir : String) (fs : FS) (config_type : String) (config_data : JVal) :
    SaveFault → FS × Option String
  | .ok =>
      (alPut (dir, configFileName config_type) (serVal 0 config_data) fs, none)
  | .openFail => (fs, some "IOError")
  | .writeFail k =>
      (alPut (dir, configFileName config_type) ((serVal 0 config_data).take k) fs,
       some "IOError")

/-- save_foundation_config / save_payroll_config (they differ only in
CONFIG_DIR): the bare `except Exception` converts any raised exception into
an st.error message, and the function falls off the end, returning None. -/
def save_config (dir : String) (fs : FS) (config_type : String) (config_data : JVal)
    (fault : SaveFault) : SaveResult :=
  match saveBody dir fs config_type config_data fault with
  | (fs2, none) => ⟨fs2, true, false, none⟩
  | (fs2, some _) => ⟨fs2, false, true, none⟩

/-- load_foundation_config / load_payroll_config: returns None when the
file does not exist; otherwise json.load inside try/except — a decode
failure is caught, reported through st.error, and None is returned.  The
pair is (Python return value, whether st.error fired). -/
def load_config (dir : String) (fs : FS) (config_type : String) : Option JVal × Bool :=
  match alGet (dir, configFileName config_type) fs with
  | none => (none, false)
  | some content =>
    match jparse content with
    | some j => (some j, false)
    | none => (none, true)

def save_foundation_config (fs : FS) (t : String) (d : JVal) (fault : SaveFault) :
    SaveResult := save_config "foundation_configs" fs t d fault

def load_foundation_config (fs : FS) (t : String) : Option JVal × Bool :=
  load_config "foundation_configs" fs t

def save_payroll_config (fs : FS) (t : String) (d : JVal) (fault : SaveFault) :
    SaveResult := save_config "payroll_configs" fs t d fault

def load_payroll_config (fs : FS) (t : String) : Option JVal × Bool :=
  load_config "payroll_configs" fs t

/-- The reset branch of system_maintenance: unlink every
Path(CONFIG_DIR).glob("*.json") match. -/
def delete_all_configs (dir : String) (fs : FS) : FS :=
  fs.filter (fun e => !(e.1.1 == dir && List.isSuffixOf ".json".data e.1.2.data))

/-- A missing document enters the backup dict as Python None, which
json.dumps renders as null. -/
def jopt : Option JVal → JVal
  | none => .null
  | some j => j

/-- The backup dict the foundation panel's system_maintenance builds: the
three fixed categories' loads plus the timestamp. -/
def foundation_backup_data (fs : FS) (ts : String) : JVal :=
  .obj [("hierarchy_rules", jopt (load_foundation_config fs "hierarchy_rules").1),
        ("validation_rules", jopt (load_foundation_config fs "validation_rules").1),
        ("processing_settings", jopt (load_foundation_config fs "processing_settings").1),
        ("backup_timestamp", .str ts)]

/-- The downloadable foundation backup file: json.dumps(backup_data, indent=2). -/
def foundation_backup_text (fs : FS) (ts : String) : List Char :=
  serVal 0 (foundation_backup_data fs ts)

/-- The foundation restore branch: json.load the uploaded file, then save
every entry whose key is not "backup_timestamp" and whose value is truthy.
json.load failing (or .items() not existing on a non-dict) is caught by the
except and reported; the Bool is that error flag. -/
def foundation_restore (fs : FS) (uploaded : List Char) : FS × Bool :=
  match jparse uploaded with
  | some (.obj entries) =>
      (entries.foldl
        (fun acc e =>
          if e.1 ≠ "backup_timestamp" ∧ truthy e.2 = true then
            (save_config "foundation_configs" acc e.1 e.2 .ok).fs
          else acc) fs,
       false)
  | some _ => (fs, true)
  | none => (fs, true)

/-- The payroll backup dict: its fixed categories, the timestamp and the
"system" tag. -/
def payroll_backup_data (fs : FS) (ts : String) : JVal :=
  .obj [("wage_types", jopt (load_payroll_config fs "wage_types").1),
        ("validation_rules", jopt (load_payroll_config fs "validation_rules").1),
        ("processing_settings", jopt (load_payroll_config fs "processing_settings").1),
        ("backup_timestamp", .str ts),
        ("system", .str "payroll")]

def payroll_backup_text (fs : FS) (ts : String) : List Char :=
  serVal 0 (payroll_backup_data fs ts)

/-- The payroll restore branch: like the foundation one but skipping both
reserved keys ("backup_timestamp" and "system"); a foreign "system" tag only
triggers a warning, not a rejection. -/
def payroll_restore (fs : FS) (uploaded : List Char) : FS × Bool :=
  match jparse uploaded with
  | some (.obj entries) =>
      (entries.foldl
        (fun acc e =>
          if (e.1 ≠ "backup_timestamp" ∧ e.1 ≠ "system") ∧ truthy e.2 = true then
            (save_config "payroll_configs" acc e.1 e.2 .ok).fs
          else acc) fs,
       false)
  | some _ => (fs, true)
  | none => (fs, true)

/-! ### Session gate (AdminAuth / SessionManager of src/admin_auth.py)

st.session_state is a string-keyed mutable map (here: Session); st.secrets
is an external key-value source.  `none` models the source being entirely
unavailable, in which case any access to st.secrets raises (so both .get
calls in get_password raise); when the source is available, .get follows
Python Mapping.get semantics: the stored value if the key is present,
otherwise the supplied default, never an exception. -/

abbrev Session := List (String × Bool)

abbrev Secrets := Option (List (String × String))

/-- st.secrets.get(key, dflt): `none` when the access raises. -/
def secretsGet (secrets : Secrets) (key dflt : String) : Option String :=
  match secrets with
  | none => none
  | some m => some ((alGet key m).getD dflt)

/-- ASCII case folding of Python's str.lower(), which AdminAuth.__init__
applies to the system name (all names the suite uses are ASCII). -/
def pyLower (s : String) : String :=
  String.mk (s.data.map (fun c =>
    if 65 ≤ c.toNat ∧ c.toNat ≤ 90 then Char.ofNat (c.toNat + 32) else c))

structure AdminAuth where
  system_name : String
  default_password : String
  session_key : String
  password_key : String

/-- AdminAuth.__init__(system_name, default_password="admin123"). -/
def adminAuthInit (system_name : String) (default_password : String) :
    AdminAuth :=
  { system_name := pyLower system_name
    default_password := default_password
    session_key := pyLower system_name ++ "_admin_authenticated"
    password_key := pyLower system_name ++ "_admin_password" }

/-- create_employee_admin / create_foundation_admin / create_payroll_admin. -/
def create_employee_admin : AdminAuth := adminAuthInit "employee" "admin123"

def create_foundation_admin : AdminAuth := adminAuthInit "foundation" "admin123"

def create_payroll_admin : AdminAuth := adminAuthInit "payroll" "admin123"

/-- AdminAuth.is_authenticated: st.session_state.get(session_key, False). -/
def AdminAuth.is_authenticated (a : AdminAuth) (session : Session) : Bool :=
  (alGet a.session_key session).getD false

/-- AdminAuth.get_password: try st.secrets.get(password_key, default); on an
exception, try st.secrets.get("master_admin_password", default); on another
exception, the default. -/
def AdminAuth.get_password (a : AdminAuth) (secrets : Secrets) : String :=
  match secretsGet secrets a.password_key a.default_password with
  | some p => p
  | none =>
    match secretsGet secrets "master_admin_password" a.default_password with
    | some p => p
    | none => a.default_password

/-- AdminAuth.authenticate: equality against get_password; on a match the
session flag is set True and True is returned, otherwise the session is
untouched and False is returned. -/
def AdminAuth.authenticate (a : AdminAuth) (secrets : Secrets) (session : Session)
    (password : String) : Bool × Session :=
  if password = a.get_password secrets then (true, alPut a.session_key true session)
  else (false, session)

/-- AdminAuth.logout: set the session flag False. -/
def AdminAuth.logout (a : AdminAuth) (session : Session) : Session :=
  alPut a.session_key false session

/-- SessionManager.get_active_admin_sessions: the dict built over exactly
the three fixed systems. -/
def get_active_admin_sessions (session : Session) : List (String × Bool) :=
  ["employee", "foundation", "payroll"].map
    (fun s => (s, (alGet (s ++ "_admin_authenticated") session).getD false))

/-- SessionManager.logout_all_systems: set each of the three fixed systems'
flags to False. -/
def logout_all_systems (session : Session) : Session :=
  ["employee", "foundation", "payroll"].foldl
    (fun acc s => alPut (s ++ "_admin_authenticated") false acc) session

/-! ### Supporting lemmas: characters, whitespace, association lists -/

lemma valid_of_lt_surrogate {n : Nat} (h : n < 55296) : n.isValidChar := Or.inl h

lemma toNat_ofNat_valid (n : Nat) (h : n.isValidChar) : (Char.ofNat n).toNat = n := by
  simp [Char.ofNat, h, Char.ofNatAux, Char.toNat, UInt32.toNat, UInt32.ofNatCore]

lemma char_toNat_lt (c : Char) : c.toNat < 1114112 := by
  have h := c.valid
  have he : c.toNat = c.val.toNat := rfl
  simp [UInt32.isValidChar, Nat.isValidChar] at h
  rcases h with h | h <;> (rw [he]; omega)

lemma char_toNat_not_surrogate (c : Char) : c.toNat < 55296 ∨ 57343 < c.toNat := by
  have h := c.valid
  have he : c.toNat = c.val.toNat := rfl
  simp [UInt32.isValidChar, Nat.isValidChar] at h
  rcases h with h | h
  · left; omega
  · right; omega

lemma char_toNat_valid (c : Char) : Nat.isValidChar c.toNat := by
  rcases char_toNat_not_surrogate c with h | h
  · exact Or.inl h
  · exact Or.inr ⟨h, char_toNat_lt c⟩

lemma mkChar_toNat (c : Char) : mkChar c.toNat = some c := by
  have hv := char_toNat_valid c
  simp only [mkChar, dif_pos hv]
  have : (Char.ofNat c.toNat).toNat = c.toNat := toNat_ofNat_valid _ hv
  exact congrArg some (Char.ofNat_toNat c)

lemma toNat_injective {a b : Char} (h : a.toNat = b.toNat) : a = b := by
  have := congrArg Char.ofNat h
  rwa [Char.ofNat_toNat, Char.ofNat_toNat] at this

lemma digitChar_toNat {m : Nat} (h : m < 10) : (digitChar m).toNat = 48 + m :=
  toNat_ofNat_valid _ (valid_of_lt_surrogate (by omega))

lemma digitChar_isDigit {m : Nat} (h : m < 10) : isDigitChar (digitChar m) = true := by
  simp [isDigitChar, digitChar_toNat h]
  omega

lemma digitVal_digitChar {m : Nat} (h : m < 10) : digitVal (digitChar m) = m := by
  simp [digitVal, digitChar_toNat h]

lemma isDigit_toNat {c : Char} (h : isDigitChar c = true) :
    48 ≤ c.toNat ∧ c.toNat ≤ 57 := by
  simp [isDigitChar] at h
  exact h

lemma digit_ne {c : Char} (d : Char) (h : isDigitChar c = true)
    (hd : isDigitChar d = false) : c ≠ d := by
  intro he
  subst he
  rw [h] at hd
  cases hd

lemma digit_not_ws {c : Char} (h : isDigitChar c = true) : isWsChar c = false := by
  simp only [isWsChar, Bool.or_eq_false_iff, decide_eq_false_iff_not]
  refine ⟨⟨⟨?_, ?_⟩, ?_⟩, ?_⟩ <;> (rintro rfl; exact absurd h (by decide))

lemma skipWs_cons_not_ws {c : Char} {cs : List Char} (h : isWsChar c = false) :
    skipWs (c :: cs) = c :: cs := by
  simp [skipWs, h]

lemma skipWs_newline (cs : List Char) : skipWs ('\n' :: cs) = skipWs cs := by
  simp [skipWs, isWsChar]

lemma skipWs_spaces (n : Nat) (cs : List Char) :
    skipWs (spaces n ++ cs) = skipWs cs := by
  induction n with
  | zero => simp [spaces]
  | succ m ih =>
      simp only [spaces, List.replicate_succ, List.cons_append]
      rw [show skipWs (' ' :: (List.replicate m ' ' ++ cs)) =
        skipWs (List.replicate m ' ' ++ cs) from by simp [skipWs, isWsChar]]
      exact ih

lemma alGet_alPut_same {κ α : Type} [DecidableEq κ] (k : κ) (v : α)
    (m : List (κ × α)) : alGet k (alPut k v m) = some v := by
  induction m with
  | nil => simp [alGet, alPut]
  | cons e t ih =>
      by_cases h : e.1 = k
      · simp [alGet, alPut, h]
      · simp [alGet, alPut, h, ih]

lemma alGet_alPut_ne {κ α : Type} [DecidableEq κ] {k k' : κ} (v : α)
    (m : List (κ × α)) (h : k' ≠ k) : alGet k' (alPut k v m) = alGet k' m := by
  have h' : ¬ k = k' := fun he => h he.symm
  induction m with
  | nil => simp [alGet, alPut, h']
  | cons e t ih =>
      by_cases he : e.1 = k
      · have hne : ¬ e.1 = k' := by rw [he]; exact h'
        simp [alGet, alPut, he, hne, h']
      · simp only [alPut, if_neg he]
        by_cases he' : e.1 = k'
        · simp [alGet, he']
        · simp [alGet, he', ih]

lemma alPut_not_mem {κ α : Type} [DecidableEq κ] {k : κ} (v : α)
    {m : List (κ × α)} (h : k ∉ m.map Prod.fst) : alPut k v m = m ++ [(k, v)] := by
  induction m with
  | nil => simp [alPut]
  | cons e t ih =>
      simp only [List.map_cons, List.mem_cons] at h
      push_neg at h
      have hne : ¬ e.1 = k := fun hx => h.1 hx.symm
      simp [alPut, hne, ih h.2]

/-! ### Number codec -/

lemma numSafe_head {c : Char} {t : List Char} (h : numSafe (c :: t) = true) :
    isDigitChar c = false ∧ c ≠ '.' ∧ c ≠ 'e' ∧ c ≠ 'E' := by
  simp only [numSafe, Bool.not_eq_true', Bool.or_eq_false_iff,
    decide_eq_false_iff_not] at h
  exact ⟨h.1.1.1, h.1.1.2, h.1.2, h.2⟩

lemma natToCharsAux_acc (fuel : Nat) : ∀ (n : Nat) (acc : List Char),
    natToCharsAux fuel n acc = natToCharsAux fuel n [] ++ acc := by
  induction fuel with
  | zero => intro n acc; simp [natToCharsAux]
  | succ f ih =>
      intro n acc
      by_cases h : n < 10
      · simp [natToCharsAux, h]
      · simp only [natToCharsAux, if_neg h]
        rw [ih (n / 10) (digitChar (n % 10) :: acc), ih (n / 10) [digitChar (n % 10)]]
        simp

lemma natToCharsAux_irrel : ∀ (n f1 f2 : Nat), n < f1 → n < f2 →
    natToCharsAux f1 n [] = natToCharsAux f2 n [] := by
  intro n
  induction n using Nat.strong_induction_on with
  | _ n ih =>
      intro f1 f2 h1 h2
      match f1, f2 with
      | a + 1, b + 1 =>
        by_cases h : n < 10
        · simp [natToCharsAux, h]
        · simp only [natToCharsAux, if_neg h]
          rw [natToCharsAux_acc a, natToCharsAux_acc b,
            ih (n / 10) (by omega) a b (by omega) (by omega)]

lemma natToChars_unfold (n : Nat) :
    natToChars n = if n < 10 then [digitChar n]
      else natToChars (n / 10) ++ [digitChar (n % 10)] := by
  by_cases h : n < 10
  · simp [natToChars, natToCharsAux, h]
  · rw [if_neg h,
      show natToChars n = natToCharsAux n (n / 10) [digitChar (n % 10)] from by
        simp [natToChars, natToCharsAux, h],
      natToCharsAux_acc n,
      natToCharsAux_irrel (n / 10) n (n / 10 + 1) (by omega) (by omega)]
    rfl

lemma natToChars_digits (n : Nat) : ∀ c ∈ natToChars n, isDigitChar c = true := by
  induction n using Nat.strong_induction_on with
  | _ n ih =>
      rw [natToChars_unfold]
      by_cases h : n < 10
      · simp only [if_pos h, List.mem_singleton]
        rintro c rfl
        exact digitChar_isDigit h
      · simp only [if_neg h, List.mem_append, List.mem_singleton]
        rintro c (hc | rfl)
        · exact ih (n / 10) (by omega) c hc
        · exact digitChar_isDigit (by omega)

lemma natToChars_ne_nil (n : Nat) : natToChars n ≠ [] := by
  rw [natToChars_unfold]
  by_cases h : n < 10 <;> simp [h]

lemma natToChars_pos_head (n : Nat) (hn : 0 < n) :
    ∃ c t, natToChars n = c :: t ∧ isDigitChar c = true ∧ c ≠ '0' := by
  induction n using Nat.strong_induction_on with
  | _ n ih =>
      rw [natToChars_unfold]
      by_cases h : n < 10
      · refine ⟨digitChar n, [], by simp [h], digitChar_isDigit h, ?_⟩
        intro he
        have h1 := congrArg Char.toNat he
        rw [digitChar_toNat h] at h1
        have h2 : ('0' : Char).toNat = 48 := by decide
        omega
      · obtain ⟨c, t, hct, hd, h0⟩ := ih (n / 10) (by omega) (by omega)
        exact ⟨c, t ++ [digitChar (n % 10)], by simp [if_neg h, hct], hd, h0⟩

lemma natToChars_foldl (n : Nat) : ∀ acc : Nat,
    (natToChars n).foldl (fun a c => a * 10 + digitVal c) acc
      = acc * 10 ^ (natToChars n).length + n := by
  induction n using Nat.strong_induction_on with
  | _ n ih =>
      intro acc
      rw [natToChars_unfold]
      by_cases h : n < 10
      · simp [if_pos h, digitVal_digitChar h]
      · simp only [if_neg h, List.foldl_append, List.foldl_cons, List.foldl_nil,
          List.length_append, List.length_cons, List.length_nil]
        rw [ih (n / 10) (by omega) acc, digitVal_digitChar (by omega)]
        have hdm : n / 10 * 10 + n % 10 = n := by omega
        calc (acc * 10 ^ (natToChars (n / 10)).length + n / 10) * 10 + n % 10
            = acc * (10 ^ (natToChars (n / 10)).length * 10) + (n / 10 * 10 + n % 10) := by
              ring
          _ = acc * 10 ^ ((natToChars (n / 10)).length + 1) + n := by
              rw [hdm, Nat.pow_succ]

lemma digitsAcc_run : ∀ (ds : List Char), (∀ c ∈ ds, isDigitChar c = true) →
    ∀ (rest : List Char), (∀ c t, rest = c :: t → isDigitChar c = false) →
    ∀ acc : Nat, digitsAcc acc (ds ++ rest)
      = (ds.foldl (fun a c => a * 10 + digitVal c) acc, rest) := by
  intro ds
  induction ds with
  | nil =>
      intro _ rest hrest acc
      match rest with
      | [] => simp [digitsAcc]
      | c :: t => simp [digitsAcc, hrest c t rfl]
  | cons c t ih =>
      intro hds rest hrest acc
      have hc : isDigitChar c = true := hds c (by simp)
      simp only [List.cons_append, digitsAcc, hc, if_true, List.append_eq]
      rw [ih (fun x hx => hds x (by simp [hx])) rest hrest]
      simp

lemma numFinish_safe {rest : List Char} (h : numSafe rest = true) (n : Nat) :
    numFinish n rest = some (n, rest) := by
  match rest with
  | [] => rfl
  | c :: t =>
      obtain ⟨_, h1, h2, h3⟩ := numSafe_head h
      simp [numFinish, h1, h2, h3]

lemma parseNumCore_natToChars (n : Nat) (rest : List Char)
    (hrest : numSafe rest = true) :
    parseNumCore (natToChars n ++ rest) = some (n, rest) := by
  have hnd : ∀ c t, rest = c :: t → isDigitChar c = false := by
    rintro c t rfl
    exact (numSafe_head hrest).1
  by_cases hn : n = 0
  · subst hn
    rw [show natToChars 0 = ['0'] from rfl]
    simp only [List.cons_append, List.nil_append, parseNumCore, if_pos]
    exact numFinish_safe hrest 0
  · obtain ⟨c, t, hct, hd, h0⟩ := natToChars_pos_head n (by omega)
    have hall := natToChars_digits n
    rw [hct] at hall
    rw [hct, List.cons_append]
    simp only [parseNumCore, if_neg h0, hd, if_true, List.append_eq]
    rw [digitsAcc_run t (fun x hx => hall x (by simp [hx])) rest hnd]
    have hfold : (c :: t).foldl (fun a c => a * 10 + digitVal c) 0 = n := by
      have := natToChars_foldl n 0
      rw [hct] at this
      simpa using this
    simp only [List.foldl_cons] at hfold
    rw [show digitVal c = 0 * 10 + digitVal c from by omega, hfold]
    exact numFinish_safe hrest n

/-! ### String codec -/

lemma some_bind_eq {α β : Type} (a : α) (f : α → Option β) :
    (some a).bind f = f a := rfl

lemma some_map_eq {α β : Type} (a : α) (f : α → β) :
    (some a).map f = some (f a) := rfl

lemma lowSurrogate_step (n : Nat) (h5 h6 h7 h8 : Char) (rest : List Char) :
    lowSurrogate n ('\\' :: 'u' :: h5 :: h6 :: h7 :: h8 :: rest)
      = (hex4Val h5 h6 h7 h8).bind (fun m =>
          if 56320 ≤ m ∧ m ≤ 57343 then
            (mkChar (65536 + (n - 55296) * 1024 + (m - 56320))).map
              (fun ch => (ch, rest))
          else none) := rfl

lemma hexVal_hexDigitChar {m : Nat} (h : m < 16) :
    hexVal (hexDigitChar m) = some m := by
  by_cases h10 : m < 10
  · have ht : (hexDigitChar m).toNat = 48 + m := by
      rw [hexDigitChar, if_pos h10]
      exact toNat_ofNat_valid _ (valid_of_lt_surrogate (by omega))
    rw [hexVal, ht, if_pos ⟨by omega, by omega⟩]
    congr 1
    omega
  · have ht : (hexDigitChar m).toNat = 87 + m := by
      rw [hexDigitChar, if_neg h10]
      exact toNat_ofNat_valid _ (valid_of_lt_surrogate (by omega))
    rw [hexVal, ht, if_neg (by omega), if_pos ⟨by omega, by omega⟩]
    congr 1
    omega

lemma hex4Val_hex4 {n : Nat} (h : n < 65536) :
    hex4Val (hexDigitChar (n / 4096 % 16)) (hexDigitChar (n / 256 % 16))
      (hexDigitChar (n / 16 % 16)) (hexDigitChar (n % 16)) = some n := by
  rw [hex4Val,
    hexVal_hexDigitChar (Nat.mod_lt _ (by omega)),
    hexVal_hexDigitChar (Nat.mod_lt _ (by omega)),
    hexVal_hexDigitChar (Nat.mod_lt _ (by omega)),
    hexVal_hexDigitChar (Nat.mod_lt _ (by omega))]
  show some ((((n / 4096 % 16) * 16 + n / 256 % 16) * 16 + n / 16 % 16) * 16 + n % 16)
    = some n
  congr 1
  have hsm : n / 4096 % 16 = n / 4096 := Nat.mod_eq_of_lt (by omega)
  have l2 : n / 16 / 16 = n / 256 := by
    rw [Nat.div_div_eq_div_mul]
  have l3 : n / 256 / 16 = n / 4096 := by
    rw [Nat.div_div_eq_div_mul]
  omega

lemma strStep_plain {c : Char} (hq : ¬ c = '"') (hb : ¬ c = '\\')
    (h32 : ¬ c.toNat < 32) (acc rest : List Char) :
    strStep acc (c :: rest) = some (.inr (c :: acc, rest)) := by
  rw [strStep.eq_def]
  simp only [if_neg hq, if_neg hb, if_neg h32]

lemma strStep_u (acc : List Char) (h1 h2 h3 h4 : Char) (rest : List Char) :
    strStep acc ('\\' :: 'u' :: h1 :: h2 :: h3 :: h4 :: rest)
      = (uEscDecode h1 h2 h3 h4 rest).map (fun p => Sum.inr (p.1 :: acc, p.2)) := rfl

lemma strStep_escapeChar (c : Char) (acc rest : List Char) :
    strStep acc (escapeChar c ++ rest) = some (.inr (c :: acc, rest)) := by
  by_cases hq : c = '"'
  · subst hq; rfl
  · by_cases hb : c = '\\'
    · subst hb; rfl
    · have hs8 : ∀ m : Nat, c.toNat = m → m < 55296 → c = Char.ofNat m := by
        rintro m hm _
        exact toNat_injective (by
          rw [hm, toNat_ofNat_valid _ (valid_of_lt_surrogate (by omega))])
      by_cases h8 : c.toNat = 8
      · rw [escapeChar, if_neg hq, if_neg hb, if_pos h8, hs8 8 h8 (by omega)]; rfl
      · by_cases h9 : c.toNat = 9
        · rw [escapeChar, if_neg hq, if_neg hb, if_neg h8, if_pos h9,
            hs8 9 h9 (by omega)]
          rfl
        · by_cases h10 : c.toNat = 10
          · rw [escapeChar, if_neg hq, if_neg hb, if_neg h8, if_neg h9, if_pos h10,
              hs8 10 h10 (by omega)]
            rfl
          · by_cases h12 : c.toNat = 12
            · rw [escapeChar, if_neg hq, if_neg hb, if_neg h8, if_neg h9, if_neg h10,
                if_pos h12, hs8 12 h12 (by omega)]
              rfl
            · by_cases h13 : c.toNat = 13
              · rw [escapeChar, if_neg hq, if_neg hb, if_neg h8, if_neg h9, if_neg h10,
                  if_neg h12, if_pos h13, hs8 13 h13 (by omega)]
                rfl
              · by_cases hpr : 32 ≤ c.toNat ∧ c.toNat ≤ 126
                · rw [escapeChar, if_neg hq, if_neg hb, if_neg h8, if_neg h9, if_neg h10,
                    if_neg h12, if_neg h13, if_pos hpr, List.singleton_append,
                    strStep_plain hq hb (by omega)]
                · by_cases hlo : c.toNat < 65536
                  · have hns : ¬ (55296 ≤ c.toNat ∧ c.toNat ≤ 56319) := by
                      rcases char_toNat_not_surrogate c with hx | hx <;> omega
                    have hdec : uEscDecode (hexDigitChar (c.toNat / 4096 % 16))
                        (hexDigitChar (c.toNat / 256 % 16)) (hexDigitChar (c.toNat / 16 % 16))
                        (hexDigitChar (c.toNat % 16)) rest = some (c, rest) := by
                      rw [uEscDecode, hex4Val_hex4 hlo, some_bind_eq,
                        if_neg hns, mkChar_toNat, some_map_eq]
                    rw [escapeChar, if_neg hq, if_neg hb, if_neg h8, if_neg h9,
                      if_neg h10, if_neg h12, if_neg h13, if_neg hpr, if_pos hlo, hex4]
                    rw [show ('\\' :: 'u' :: [hexDigitChar (c.toNat / 4096 % 16),
                        hexDigitChar (c.toNat / 256 % 16), hexDigitChar (c.toNat / 16 % 16),
                        hexDigitChar (c.toNat % 16)]) ++ rest
                      = '\\' :: 'u' :: hexDigitChar (c.toNat / 4096 % 16) ::
                        hexDigitChar (c.toNat / 256 % 16) :: hexDigitChar (c.toNat / 16 % 16) ::
                        hexDigitChar (c.toNat % 16) :: rest from rfl]
                    rw [strStep_u, hdec, some_map_eq]
                  · have hhi : c.toNat < 1114112 := char_toNat_lt c
                    have hd1 : (c.toNat - 65536) / 1024 < 1024 := by
                      apply Nat.div_lt_of_lt_mul
                      omega
                    have hd2 : (c.toNat - 65536) % 1024 < 1024 := Nat.mod_lt _ (by omega)
                    have hcomb : 65536 + ((55296 + (c.toNat - 65536) / 1024) - 55296) * 1024 +
                        ((56320 + (c.toNat - 65536) % 1024) - 56320) = c.toNat := by
                      have hdm := Nat.div_add_mod (c.toNat - 65536) 1024
                      omega
                    have hdec : uEscDecode
                        (hexDigitChar ((55296 + (c.toNat - 65536) / 1024) / 4096 % 16))
                        (hexDigitChar ((55296 + (c.toNat - 65536) / 1024) / 256 % 16))
                        (hexDigitChar ((55296 + (c.toNat - 65536) / 1024) / 16 % 16))
                        (hexDigitChar ((55296 + (c.toNat - 65536) / 1024) % 16))
                        ('\\' :: 'u' :: hexDigitChar ((56320 + (c.toNat - 65536) % 1024) / 4096 % 16) ::
                         hexDigitChar ((56320 + (c.toNat - 65536) % 1024) / 256 % 16) ::
                         hexDigitChar ((56320 + (c.toNat - 65536) % 1024) / 16 % 16) ::
                         hexDigitChar ((56320 + (c.toNat - 65536) % 1024) % 16) :: rest)
                        = some (c, rest) := by
                      rw [uEscDecode,
                        hex4Val_hex4 (show 55296 + (c.toNat - 65536) / 1024 < 65536 from by omega),
                        some_bind_eq,
                        if_pos (show (55296 : Nat) ≤ 55296 + (c.toNat - 65536) / 1024 ∧
                          55296 + (c.toNat - 65536) / 1024 ≤ 56319 from ⟨by omega, by omega⟩)]
                      rw [lowSurrogate_step,
                        hex4Val_hex4 (show 56320 + (c.toNat - 65536) % 1024 < 65536 from by omega),
                        some_bind_eq,
                        if_pos (show (56320 : Nat) ≤ 56320 + (c.toNat - 65536) % 1024 ∧
                          56320 + (c.toNat - 65536) % 1024 ≤ 57343 from ⟨by omega, by omega⟩),
                        hcomb, mkChar_toNat, some_map_eq]
                    rw [escapeChar, if_neg hq, if_neg hb, if_neg h8, if_neg h9,
                      if_neg h10, if_neg h12, if_neg h13, if_neg hpr, if_neg hlo,
                      hex4, hex4]
                    rw [show (('\\' :: 'u' :: [hexDigitChar ((55296 + (c.toNat - 65536) / 1024) / 4096 % 16),
                        hexDigitChar ((55296 + (c.toNat - 65536) / 1024) / 256 % 16),
                        hexDigitChar ((55296 + (c.toNat - 65536) / 1024) / 16 % 16),
                        hexDigitChar ((55296 + (c.toNat - 65536) / 1024) % 16)]) ++
                       ('\\' :: 'u' :: [hexDigitChar ((56320 + (c.toNat - 65536) % 1024) / 4096 % 16),
                        hexDigitChar ((56320 + (c.toNat - 65536) % 1024) / 256 % 16),
                        hexDigitChar ((56320 + (c.toNat - 65536) % 1024) / 16 % 16),
                        hexDigitChar ((56320 + (c.toNat - 65536) % 1024) % 16)])) ++ rest
                      = '\\' :: 'u' :: hexDigitChar ((55296 + (c.toNat - 65536) / 1024) / 4096 % 16) ::
                        hexDigitChar ((55296 + (c.toNat - 65536) / 1024) / 256 % 16) ::
                        hexDigitChar ((55296 + (c.toNat - 65536) / 1024) / 16 % 16) ::
                        hexDigitChar ((55296 + (c.toNat - 65536) / 1024) % 16) ::
                        '\\' :: 'u' :: hexDigitChar ((56320 + (c.toNat - 65536) % 1024) / 4096 % 16) ::
                        hexDigitChar ((56320 + (c.toNat - 65536) % 1024) / 256 % 16) ::
                        hexDigitChar ((56320 + (c.toNat - 65536) % 1024) / 16 % 16) ::
                        hexDigitChar ((56320 + (c.toNat - 65536) % 1024) % 16) :: rest from rfl]
                    rw [strStep_u, hdec, some_map_eq]

lemma escapeList_length (cs : List Char) : cs.length ≤ (escapeList cs).length := by
  induction cs with
  | nil => simp [escapeList]
  | cons c t ih =>
      rw [escapeList, List.length_append, List.length_cons]
      have hc : 1 ≤ (escapeChar c).length := by
        rw [escapeChar]
        repeat' split
        all_goals simp [hex4]
      omega

lemma parseStrAux_escapeList : ∀ (cs : List Char) (fuel : Nat) (acc rest : List Char),
    cs.length < fuel →
    parseStrAux fuel acc (escapeList cs ++ '"' :: rest)
      = some (String.mk (acc.reverse ++ cs), rest) := by
  intro cs
  induction cs with
  | nil =>
      intro fuel acc rest hf
      match fuel, hf with
      | f + 1, _ =>
        rw [escapeList, List.nil_append, parseStrAux,
          show strStep acc ('"' :: rest) = some (.inl (String.mk acc.reverse, rest))
            from rfl]
        simp
  | cons c t ih =>
      intro fuel acc rest hf
      match fuel, hf with
      | f + 1, hf2 =>
        rw [escapeList, List.append_assoc, parseStrAux, strStep_escapeChar]
        show parseStrAux f (c :: acc) (escapeList t ++ '"' :: rest)
          = some (String.mk (acc.reverse ++ c :: t), rest)
        rw [ih f (c :: acc) rest (by simp only [List.length_cons] at hf2; omega)]
        simp

lemma parseStrTop_serStr (s : String) (rest : List Char) :
    parseStrTop (escapeList s.data ++ '"' :: rest) = some (s, rest) := by
  rw [parseStrTop, parseStrAux_escapeList s.data _ [] rest (by
    have h1 := escapeList_length s.data
    rw [List.length_append]
    omega)]
  rfl

/-! ### Value codec: step views, head shapes, sizes -/

lemma skipWs_idem (cs : List Char) : skipWs (skipWs cs) = skipWs cs := by
  induction cs with
  | nil => rfl
  | cons c t ih =>
      by_cases h : isWsChar c
      · rw [show skipWs (c :: t) = skipWs t from by simp [skipWs, h]]
        exact ih
      · rw [skipWs_cons_not_ws (by simpa using h),
          skipWs_cons_not_ws (by simpa using h)]

lemma parseValue_quote (f : Nat) (r : List Char) :
    parseValue (f + 1) ('"' :: r)
      = match parseStrTop r with
        | some (s, r2) => some (.str s, r2)
        | none => none := rfl

lemma parseValue_bracket (f : Nat) (X : List Char) :
    parseValue (f + 1) ('[' :: X) = arrStart f (skipWs X) := rfl

lemma parseValue_brace (f : Nat) (X : List Char) :
    parseValue (f + 1) ('\x7b' :: X) = objStart f (skipWs X) := rfl

lemma parseValue_minus (f : Nat) (r : List Char) :
    parseValue (f + 1) ('-' :: r)
      = match parseNumCore r with
        | some (n, r2) => some (.num (-(n : Int)), r2)
        | none => none := rfl

lemma parseValue_null (f : Nat) (r : List Char) :
    parseValue (f + 1) ('n' :: 'u' :: 'l' :: 'l' :: r) = some (.null, r) := rfl

lemma parseValue_true (f : Nat) (r : List Char) :
    parseValue (f + 1) ('t' :: 'r' :: 'u' :: 'e' :: r) = some (.bool true, r) := rfl

lemma parseValue_false (f : Nat) (r : List Char) :
    parseValue (f + 1) ('f' :: 'a' :: 'l' :: 's' :: 'e' :: r)
      = some (.bool false, r) := rfl

lemma parseValue_digit {c : Char} (h : isDigitChar c = true) (f : Nat)
    (r : List Char) :
    parseValue (f + 1) (c :: r)
      = match parseNumCore (c :: r) with
        | some (n, r2) => some (.num (n : Int), r2)
        | none => none := by
  have h1 : c ≠ '"' := digit_ne _ h (by decide)
  have h2 : c ≠ '[' := digit_ne _ h (by decide)
  have h3 : c ≠ '\x7b' := digit_ne _ h (by decide)
  have h4 : c ≠ '-' := digit_ne _ h (by decide)
  rw [parseValue]
  rw [if_neg h1, if_neg h2, if_neg h3, if_neg h4, if_pos h]

lemma parseArrLoop_skipWs (f : Nat) (acc : List JVal) (cs : List Char) :
    parseArrLoop (f + 1) acc cs = parseArrLoop (f + 1) acc (skipWs cs) := by
  conv_lhs => rw [parseArrLoop]
  conv_rhs => rw [parseArrLoop]
  rw [skipWs_idem]

lemma parseArrLoop_close (f : Nat) (acc : List JVal) (r : List Char) :
    parseArrLoop (f + 1) acc (']' :: r) = some (.arr acc, r) := rfl

lemma parseArrLoop_comma (f : Nat) (acc : List JVal) (r : List Char) :
    parseArrLoop (f + 1) acc (',' :: r)
      = match parseValue f (skipWs r) with
        | some (v, r2) => parseArrLoop f (acc ++ [v]) r2
        | none => none := rfl

lemma parseObjLoop_skipWs (f : Nat) (acc : List (String × JVal)) (cs : List Char) :
    parseObjLoop (f + 1) acc cs = parseObjLoop (f + 1) acc (skipWs cs) := by
  conv_lhs => rw [parseObjLoop]
  conv_rhs => rw [parseObjLoop]
  rw [skipWs_idem]

lemma parseObjLoop_close (f : Nat) (acc : List (String × JVal)) (r : List Char) :
    parseObjLoop (f + 1) acc ('\x7d' :: r) = some (.obj acc, r) := rfl

lemma parseObjLoop_comma (f : Nat) (acc : List (String × JVal)) (r : List Char) :
    parseObjLoop (f + 1) acc (',' :: r) = objKey f acc (skipWs r) := rfl

lemma objCont_colon (f : Nat) (acc : List (String × JVal)) (k : String)
    (Y : List Char) :
    objCont f acc (some (k, ':' :: ' ' :: Y))
      = match parseValue f (skipWs Y) with
        | some (v, r5) => parseObjLoop f (alPut k v acc) r5
        | none => none := rfl

lemma natToChars_head (n : Nat) :
    ∃ c t, natToChars n = c :: t ∧ isDigitChar c = true := by
  by_cases h : n = 0
  · subst h
    exact ⟨'0', [], rfl, by decide⟩
  · obtain ⟨c, t, hct, hd, _⟩ := natToChars_pos_head n (by omega)
    exact ⟨c, t, hct, hd⟩

lemma serVal_headChar (ind : Nat) (j : JVal) :
    ∃ c t, serVal ind j = c :: t ∧ isWsChar c = false ∧ c ≠ ']' := by
  cases j with
  | null => exact ⟨'n', _, rfl, by decide, by decide⟩
  | bool b =>
      cases b with
      | false => exact ⟨'f', _, rfl, by decide, by decide⟩
      | true => exact ⟨'t', _, rfl, by decide, by decide⟩
  | num n =>
      by_cases h : n < 0
      · refine ⟨'-', natToChars n.natAbs, ?_, by decide, by decide⟩
        show serInt n = _
        rw [serInt, if_pos h]
      · obtain ⟨c, t, hct, hd⟩ := natToChars_head n.toNat
        refine ⟨c, t, ?_, digit_not_ws hd, digit_ne _ hd (by decide)⟩
        show serInt n = c :: t
        rw [serInt, if_neg h, hct]
  | str s => exact ⟨'"', _, rfl, by decide, by decide⟩
  | arr l =>
      cases l with
      | nil => exact ⟨'[', _, rfl, by decide, by decide⟩
      | cons h t => exact ⟨'[', _, rfl, by decide, by decide⟩
  | obj l =>
      cases l with
      | nil => exact ⟨'\x7b', _, rfl, by decide, by decide⟩
      | cons e t => exact ⟨'\x7b', _, rfl, by decide, by decide⟩

lemma skipWs_serVal (ind : Nat) (j : JVal) (rest : List Char) :
    skipWs (serVal ind j ++ rest) = serVal ind j ++ rest := by
  obtain ⟨c, t, hct, hws, _⟩ := serVal_headChar ind j
  rw [hct, List.cons_append, skipWs_cons_not_ws hws]

lemma numSafe_serArrTail (ind : Nat) (t : List JVal) (Z : List Char) :
    numSafe (serArrTail ind t ++ '\n' :: Z) = true := by
  cases t with
  | nil => rfl
  | cons h t2 => rfl

lemma numSafe_serObjTail (ind : Nat) (t : List (String × JVal)) (Z : List Char) :
    numSafe (serObjTail ind t ++ '\n' :: Z) = true := by
  cases t with
  | nil => rfl
  | cons e t2 => rfl

mutual
theorem jsize_le_serVal : ∀ (ind : Nat) (j : JVal),
    jsize j ≤ (serVal ind j).length
  | _, .null => by simp [jsize, serVal]
  | _, .bool true => by simp [jsize, serVal]
  | _, .bool false => by simp [jsize, serVal]
  | _, .num n => by
      simp only [jsize, serVal, serInt]
      by_cases h : n < 0
      · simp [h]
      · rw [if_neg h]
        cases hx : natToChars n.toNat with
        | nil => exact absurd hx (natToChars_ne_nil _)
        | cons a b => simp
  | _, .str s => by simp [jsize, serVal, serStr]
  | _, .arr [] => by simp [jsize, jsizeL, serVal]
  | ind, .arr (h :: t) => by
      have h1 := jsize_le_serVal (ind + 1) h
      have h2 := jsizeL_le_serArrTail (ind + 1) t
      simp only [jsize, jsizeL, serVal, List.length_cons, List.length_append]
      omega
  | _, .obj [] => by simp [jsize, jsizeE, serVal]
  | ind, .obj ((k, v) :: t) => by
      have h1 := jsize_le_serVal (ind + 1) v
      have h2 := jsizeE_le_serObjTail (ind + 1) t
      simp only [jsize, jsizeE, serVal, List.length_cons, List.length_append]
      omega
theorem jsizeL_le_serArrTail : ∀ (ind : Nat) (l : List JVal),
    jsizeL l ≤ (serArrTail ind l).length
  | _, [] => by simp [jsizeL, serArrTail]
  | ind, h :: t => by
      have h1 := jsize_le_serVal ind h
      have h2 := jsizeL_le_serArrTail ind t
      simp only [jsizeL, serArrTail, List.length_cons, List.length_append]
      omega
theorem jsizeE_le_serObjTail : ∀ (ind : Nat) (l : List (String × JVal)),
    jsizeE l ≤ (serObjTail ind l).length
  | _, [] => by simp [jsizeE, serObjTail]
  | ind, (k, v) :: t => by
      have h1 := jsize_le_serVal ind v
      have h2 := jsizeE_le_serObjTail ind t
      simp only [jsizeE, serObjTail, List.length_cons, List.length_append]
      omega
end

lemma objStart_quote (f : Nat) (r2 : List Char) :
    objStart f ('"' :: r2) = objCont f [] (parseStrTop r2) := rfl

lemma objKey_quote (f : Nat) (acc : List (String × JVal)) (r2 : List Char) :
    objKey f acc ('"' :: r2) = objCont f acc (parseStrTop r2) := rfl

/- The round trip of the whole value codec: scanning a serialised value with
enough fuel yields the value back and consumes exactly its text.  The
`numSafe` hypothesis keeps the greedy number scan from absorbing the first
character after a serialised number; every continuation the serialiser
produces satisfies it. -/
mutual
theorem parseValue_serVal : ∀ (j : JVal) (ind f : Nat) (rest : List Char),
    jsize j ≤ f → jwf j = true → numSafe rest = true →
    parseValue f (serVal ind j ++ rest) = some (j, rest)
  | .null, ind, f, rest, hf, _, _ => by
      have h1 : 1 ≤ f := hf
      obtain ⟨fu, rfl⟩ : ∃ fu, f = fu + 1 := ⟨f - 1, by omega⟩
      exact parseValue_null fu rest
  | .bool true, ind, f, rest, hf, _, _ => by
      have h1 : 1 ≤ f := hf
      obtain ⟨fu, rfl⟩ : ∃ fu, f = fu + 1 := ⟨f - 1, by omega⟩
      exact parseValue_true fu rest
  | .bool false, ind, f, rest, hf, _, _ => by
      have h1 : 1 ≤ f := hf
      obtain ⟨fu, rfl⟩ : ∃ fu, f = fu + 1 := ⟨f - 1, by omega⟩
      exact parseValue_false fu rest
  | .num n, ind, f, rest, hf, _, hns => by
      have h1 : 1 ≤ f := hf
      obtain ⟨fu, rfl⟩ : ∃ fu, f = fu + 1 := ⟨f - 1, by omega⟩
      show parseValue (fu + 1) (serInt n ++ rest) = some (.num n, rest)
      by_cases h : n < 0
      · rw [serInt, if_pos h, List.cons_append, parseValue_minus,
          parseNumCore_natToChars n.natAbs rest hns]
        show (some (JVal.num (-(n.natAbs : Int)), rest) : Option (JVal × List Char))
          = some (.num n, rest)
        have he : -((n.natAbs : Int)) = n := by omega
        rw [he]
      · rw [serInt, if_neg h]
        obtain ⟨c, t, hct, hd⟩ := natToChars_head n.toNat
        rw [hct, List.cons_append, parseValue_digit hd, ← List.cons_append, ← hct,
          parseNumCore_natToChars n.toNat rest hns]
        show (some (JVal.num ((n.toNat : Int)), rest) : Option (JVal × List Char))
          = some (.num n, rest)
        have he : ((n.toNat : Int)) = n := by omega
        rw [he]
  | .str s, ind, f, rest, hf, _, _ => by
      have h1 : 1 ≤ f := hf
      obtain ⟨fu, rfl⟩ : ∃ fu, f = fu + 1 := ⟨f - 1, by omega⟩
      show parseValue (fu + 1) (serStr s ++ rest) = some (.str s, rest)
      rw [serStr, List.cons_append, parseValue_quote, List.append_assoc,
        List.singleton_append, parseStrTop_serStr]
  | .arr [], ind, f, rest, hf, _, _ => by
      have h1 : 1 ≤ f := hf
      obtain ⟨fu, rfl⟩ : ∃ fu, f = fu + 1 := ⟨f - 1, by omega⟩
      exact rfl
  | .arr (h :: t), ind, f, rest, hf, hwf, hns => by
      have h1 : 1 + (1 + jsize h + jsizeL t) ≤ f := hf
      obtain ⟨fu, rfl⟩ : ∃ fu, f = fu + 1 := ⟨f - 1, by omega⟩
      have hwf' : (jwf h && jwfL t) = true := hwf
      obtain ⟨hwh, hwt⟩ := Bool.and_eq_true_iff.mp hwf'
      have hser : serVal ind (.arr (h :: t)) ++ rest
          = '[' :: ('\n' :: (spaces (2 * (ind + 1)) ++ (serVal (ind + 1) h ++
              (serArrTail (ind + 1) t ++
               '\n' :: (spaces (2 * ind) ++ ']' :: rest))))) := by
        simp [serVal, List.append_assoc]
      obtain ⟨c, ct, hct, hws, hbr⟩ := serVal_headChar (ind + 1) h
      rw [hser, parseValue_bracket, skipWs_newline, skipWs_spaces, skipWs_serVal,
        hct, List.cons_append, arrStart, if_neg hbr, ← List.cons_append, ← hct,
        parseValue_serVal h (ind + 1) fu _ (by omega) hwh
          (numSafe_serArrTail _ _ _)]
      show parseArrLoop fu [h]
          (serArrTail (ind + 1) t ++ '\n' :: (spaces (2 * ind) ++ ']' :: rest))
        = some (.arr (h :: t), rest)
      rw [parseArrLoop_serArrTail t [h] fu (ind + 1) (2 * ind) rest
        (by omega) hwt]
      rfl
  | .obj [], ind, f, rest, hf, _, _ => by
      have h1 : 1 ≤ f := hf
      obtain ⟨fu, rfl⟩ : ∃ fu, f = fu + 1 := ⟨f - 1, by omega⟩
      exact rfl
  | .obj ((k, v) :: t), ind, f, rest, hf, hwf, hns => by
      have h1 : 1 + (1 + jsize v + jsizeE t) ≤ f := hf
      obtain ⟨fu, rfl⟩ : ∃ fu, f = fu + 1 := ⟨f - 1, by omega⟩
      have hwf' : (decide (List.Nodup (((k, v) :: t).map Prod.fst))
          && jwfE ((k, v) :: t)) = true := hwf
      obtain ⟨hndb, hwe⟩ := Bool.and_eq_true_iff.mp hwf'
      have hnd : List.Nodup (((k, v) :: t).map Prod.fst) := of_decide_eq_true hndb
      have hwe' : (jwf v && jwfE t) = true := hwe
      obtain ⟨hwv, hwt⟩ := Bool.and_eq_true_iff.mp hwe'
      have hser : serVal ind (.obj ((k, v) :: t)) ++ rest
          = '\x7b' :: ('\n' :: (spaces (2 * (ind + 1)) ++
              ('"' :: (escapeList k.data ++ '"' ::
                (':' :: ' ' :: (serVal (ind + 1) v ++ (serObjTail (ind + 1) t ++
                  '\n' :: (spaces (2 * ind) ++ '\x7d' :: rest)))))))) := by
        simp [serVal, serStr, List.append_assoc]
      rw [hser, parseValue_brace, skipWs_newline, skipWs_spaces,
        skipWs_cons_not_ws (show isWsChar '"' = false from rfl), objStart_quote,
        parseStrTop_serStr, objCont_colon, skipWs_serVal,
        parseValue_serVal v (ind + 1) fu _ (by omega) hwv
          (numSafe_serObjTail _ _ _)]
      show parseObjLoop fu [(k, v)]
          (serObjTail (ind + 1) t ++ '\n' :: (spaces (2 * ind) ++ '\x7d' :: rest))
        = some (.obj ((k, v) :: t), rest)
      rw [parseObjLoop_serObjTail t [(k, v)] fu (ind + 1) (2 * ind) rest
        (by omega) hwt hnd]
      rfl
theorem parseArrLoop_serArrTail : ∀ (t acc : List JVal) (f ind m : Nat)
    (rest : List Char), jsizeL t + 1 ≤ f → jwfL t = true →
    parseArrLoop f acc (serArrTail ind t ++ '\n' :: (spaces m ++ ']' :: rest))
      = some (.arr (acc ++ t), rest)
  | [], acc, f, ind, m, rest, hf, _ => by
      have h1 : 0 + 1 ≤ f := hf
      obtain ⟨fu, rfl⟩ : ∃ fu, f = fu + 1 := ⟨f - 1, by omega⟩
      show parseArrLoop (fu + 1) acc ('\n' :: (spaces m ++ ']' :: rest))
        = some (.arr (acc ++ []), rest)
      rw [parseArrLoop_skipWs, skipWs_newline, skipWs_spaces,
        skipWs_cons_not_ws (show isWsChar ']' = false from rfl),
        parseArrLoop_close, List.append_nil]
  | h2 :: t2, acc, f, ind, m, rest, hf, hwf => by
      have h1 : (1 + jsize h2 + jsizeL t2) + 1 ≤ f := hf
      obtain ⟨fu, rfl⟩ : ∃ fu, f = fu + 1 := ⟨f - 1, by omega⟩
      have hwf' : (jwf h2 && jwfL t2) = true := hwf
      obtain ⟨hw2, hwt⟩ := Bool.and_eq_true_iff.mp hwf'
      have hser : serArrTail ind (h2 :: t2) ++ '\n' :: (spaces m ++ ']' :: rest)
          = ',' :: ('\n' :: (spaces (2 * ind) ++ (serVal ind h2 ++
              (serArrTail ind t2 ++ '\n' :: (spaces m ++ ']' :: rest))))) := by
        simp [serArrTail, List.append_assoc]
      rw [hser, parseArrLoop_comma, skipWs_newline, skipWs_spaces, skipWs_serVal,
        parseValue_serVal h2 ind fu _ (by omega) hw2 (numSafe_serArrTail _ _ _)]
      show parseArrLoop fu (acc ++ [h2])
          (serArrTail ind t2 ++ '\n' :: (spaces m ++ ']' :: rest))
        = some (.arr (acc ++ h2 :: t2), rest)
      rw [parseArrLoop_serArrTail t2 (acc ++ [h2]) fu ind m rest (by omega) hwt,
        List.append_assoc]
      rfl
theorem parseObjLoop_serObjTail : ∀ (t acc : List (String × JVal)) (f ind m : Nat)
    (rest : List Char), jsizeE t + 1 ≤ f → jwfE t = true →
    List.Nodup ((acc ++ t).map Prod.fst) →
    parseObjLoop f acc (serObjTail ind t ++ '\n' :: (spaces m ++ '\x7d' :: rest))
      = some (.obj (acc ++ t), rest)
  | [], acc, f, ind, m, rest, hf, _, _ => by
      have h1 : 0 + 1 ≤ f := hf
      obtain ⟨fu, rfl⟩ : ∃ fu, f = fu + 1 := ⟨f - 1, by omega⟩
      show parseObjLoop (fu + 1) acc ('\n' :: (spaces m ++ '\x7d' :: rest))
        = some (.obj (acc ++ []), rest)
      rw [parseObjLoop_skipWs, skipWs_newline, skipWs_spaces,
        skipWs_cons_not_ws (show isWsChar '\x7d' = false from rfl),
        parseObjLoop_close, List.append_nil]
  | (k, v) :: t2, acc, f, ind, m, rest, hf, hwf, hnd => by
      have h1 : (1 + jsize v + jsizeE t2) + 1 ≤ f := hf
      obtain ⟨fu, rfl⟩ : ∃ fu, f = fu + 1 := ⟨f - 1, by omega⟩
      have hwf' : (jwf v && jwfE t2) = true := hwf
      obtain ⟨hwv, hwt⟩ := Bool.and_eq_true_iff.mp hwf'
      have hser : serObjTail ind ((k, v) :: t2) ++ '\n' :: (spaces m ++ '\x7d' :: rest)
          = ',' :: ('\n' :: (spaces (2 * ind) ++ ('"' :: (escapeList k.data ++ '"' ::
              (':' :: ' ' :: (serVal ind v ++ (serObjTail ind t2 ++
                '\n' :: (spaces m ++ '\x7d' :: rest)))))))) := by
        simp [serObjTail, serStr, List.append_assoc]
      have hk : k ∉ acc.map Prod.fst := by
        have hnd' := hnd
        rw [List.map_append, List.nodup_append] at hnd'
        intro hmem
        exact hnd'.2.2 hmem (by simp)
      rw [hser, parseObjLoop_comma, skipWs_newline, skipWs_spaces,
        skipWs_cons_not_ws (show isWsChar '"' = false from rfl), objKey_quote,
        parseStrTop_serStr, objCont_colon, skipWs_serVal,
        parseValue_serVal v ind fu _ (by omega) hwv (numSafe_serObjTail _ _ _)]
      show parseObjLoop fu (alPut k v acc)
          (serObjTail ind t2 ++ '\n' :: (spaces m ++ '\x7d' :: rest))
        = some (.obj (acc ++ (k, v) :: t2), rest)
      rw [alPut_not_mem v hk,
        parseObjLoop_serObjTail t2 (acc ++ [(k, v)]) fu ind m rest (by omega) hwt
          (by rw [List.append_assoc]; exact hnd),
        List.append_assoc]
      rfl
end

/-- Full-document round trip: json.load on the exact text json.dump wrote
recovers the value. -/
theorem jparse_serVal (j : JVal) (hwf : jwf j = true) :
    jparse (serVal 0 j) = some j := by
  have hskip : skipWs (serVal 0 j) = serVal 0 j := by
    have h := skipWs_serVal 0 j []
    simpa using h
  have hp : parseValue ((serVal 0 j).length + 1) (serVal 0 j) = some (j, []) := by
    have h := parseValue_serVal j 0 ((serVal 0 j).length + 1) []
      (by have := jsize_le_serVal 0 j; omega) hwf rfl
    simpa using h
  rw [jparse, hskip, hp]
  rfl

/-! ### Store and session lemmas -/

lemma string_append_right_cancel {s t u : String} (h : s ++ u = t ++ u) : s = t := by
  have hd := congrArg String.data h
  rw [String.data_append, String.data_append] at hd
  exact String.ext (List.append_cancel_right hd)

lemma save_ok_fs (dir : String) (fs : FS) (t : String) (d : JVal) :
    (save_config dir fs t d .ok).fs
      = alPut (dir, configFileName t) (serVal 0 d) fs := rfl

lemma load_saved (dir : String) (t : String) (d : JVal) (fs : FS)
    (hwf : jwf d = true) :
    load_config dir (alPut (dir, configFileName t) (serVal 0 d) fs) t
      = (some d, false) := by
  rw [load_config, alGet_alPut_same]
  show (match jparse (serVal 0 d) with
        | some j => (some j, false)
        | none => (none, true) : Option JVal × Bool) = (some d, false)
  rw [jparse_serVal d hwf]

lemma load_alPut_ne (dir : String) (t : String) (k : String × String)
    (c : List Char) (fs : FS) (hne : (dir, configFileName t) ≠ k) :
    load_config dir (alPut k c fs) t = load_config dir fs t := by
  rw [load_config, load_config, alGet_alPut_ne c fs hne]

lemma foundation_restore_saved (base : FS) (dh dv dp : JVal) (ts : String)
    (hth : truthy dh = true) (htv : truthy dv = true) (htp : truthy dp = true)
    (uploaded : List Char)
    (hup : jparse uploaded = some (.obj [("hierarchy_rules", dh),
      ("validation_rules", dv), ("processing_settings", dp),
      ("backup_timestamp", .str ts)])) :
    foundation_restore base uploaded
      = (alPut ("foundation_configs", configFileName "processing_settings")
          (serVal 0 dp)
          (alPut ("foundation_configs", configFileName "validation_rules")
            (serVal 0 dv)
            (alPut ("foundation_configs", configFileName "hierarchy_rules")
              (serVal 0 dh) base)),
         false) := by
  rw [foundation_restore, hup]
  show (List.foldl
      (fun acc e =>
        if e.1 ≠ "backup_timestamp" ∧ truthy e.2 = true then
          (save_config "foundation_configs" acc e.1 e.2 .ok).fs
        else acc) base
      [("hierarchy_rules", dh), ("validation_rules", dv),
       ("processing_settings", dp), ("backup_timestamp", .str ts)], false) = _
  simp only [List.foldl]
  rw [if_pos (And.intro (by decide) hth), if_pos (And.intro (by decide) htv),
    if_pos (And.intro (by decide) htp), if_neg (by simp)]
  rfl

lemma payroll_restore_saved (base : FS) (dh dv dp : JVal) (ts : String)
    (hth : truthy dh = true) (htv : truthy dv = true) (htp : truthy dp = true)
    (uploaded : List Char)
    (hup : jparse uploaded = some (.obj [("wage_types", dh),
      ("validation_rules", dv), ("processing_settings", dp),
      ("backup_timestamp", .str ts), ("system", .str "payroll")])) :
    payroll_restore base uploaded
      = (alPut ("payroll_configs", configFileName "processing_settings")
          (serVal 0 dp)
          (alPut ("payroll_configs", configFileName "validation_rules")
            (serVal 0 dv)
            (alPut ("payroll_configs", configFileName "wage_types")
              (serVal 0 dh) base)),
         false) := by
  rw [payroll_restore, hup]
  show (List.foldl
      (fun acc e =>
        if (e.1 ≠ "backup_timestamp" ∧ e.1 ≠ "system") ∧ truthy e.2 = true then
          (save_config "payroll_configs" acc e.1 e.2 .ok).fs
        else acc) base
      [("wage_types", dh), ("validation_rules", dv),
       ("processing_settings", dp), ("backup_timestamp", .str ts),
       ("system", .str "payroll")], false) = _
  simp only [List.foldl]
  rw [if_pos (And.intro (And.intro (by decide) (by decide)) hth),
    if_pos (And.intro (And.intro (by decide) (by decide)) htv),
    if_pos (And.intro (And.intro (by decide) (by decide)) htp),
    if_neg (by simp), if_neg (by simp)]
  rfl

/-! ### The claims -/

/-- C1: the claimed resolution order — subsystem secret, else master secret,
else the default — does NOT hold in the code.  When the secret source is
available but holds no subsystem key, Mapping.get already returns the default
without raising, so the master_admin_password fallback is unreachable: with
the source holding only master_admin_password = "secret123", get_password for
the foundation system returns "admin123", not the master secret. -/
theorem claim_C1_get_password_skips_master :
    create_foundation_admin.get_password
        (some [("master_admin_password", "secret123")]) = "admin123"
    ∧ "admin123" ≠ "secret123" := ⟨rfl, by decide⟩

/-- C2: saving a well-formed document and loading it back under the same
directory and config type returns exactly the saved document (and no error
is reported). -/
theorem claim_C2_save_load_roundtrip (dir : String) (fs : FS) (t : String)
    (d : JVal) (hwf : jwf d = true) :
    load_config dir (save_config dir fs t d .ok).fs t = (some d, false) := by
  rw [save_ok_fs]
  exact load_saved dir t d fs hwf

/-- C2 witness: the concrete wage_types scenario — saving
(("1000": (("name": "Basic Pay"), ("taxable": true)))) under payroll and
loading it back returns exactly that structure. -/
theorem claim_C2_save_load_roundtrip_witness :
    load_payroll_config
        (save_payroll_config [] "wage_types"
          (.obj [("1000", .obj [("name", .str "Basic Pay"),
            ("taxable", .bool true)])]) .ok).fs
        "wage_types"
      = (some (.obj [("1000", .obj [("name", .str "Basic Pay"),
          ("taxable", .bool true)])]), false) :=
  claim_C2_save_load_roundtrip "payroll_configs" [] "wage_types" _ (by decide)

/-- C3 counterexample: a stored file whose content is not valid JSON loads
as the very same Python return value (None) as a never-saved key, so the
decode failure is NOT "a result distinct from Absent"; only the st.error
side channel fires. -/
theorem claim_C3_counterexample_corrupt_load_equals_absent :
    (load_foundation_config
        [(("foundation_configs", "hierarchy_rules_config.json"), "oops".data)]
        "hierarchy_rules").1
      = (load_foundation_config [] "hierarchy_rules").1
    ∧ (load_foundation_config
        [(("foundation_configs", "hierarchy_rules_config.json"), "oops".data)]
        "hierarchy_rules").2 = true := ⟨rfl, rfl⟩

/-- C3 amended: a never-saved key loads as (None, no error); a key saved
with an empty mapping loads as the empty mapping, distinguishable from
Absent; a stored file with invalid JSON content loads as None — the same
return value as Absent — with the failure reported only through st.error. -/
theorem claim_C3_amended_load_absent_vs_corrupt (dir : String) (fs : FS)
    (t : String) :
    load_config dir [] t = (none, false)
    ∧ load_config dir (save_config dir fs t (.obj []) .ok).fs t
        = (some (.obj []), false)
    ∧ (∀ content, alGet (dir, configFileName t) fs = some content →
        jparse content = none → load_config dir fs t = (none, true)) := by
  refine ⟨rfl, ?_, ?_⟩
  · rw [save_ok_fs]
    exact load_saved dir t (.obj []) fs rfl
  · intro content hget hbad
    rw [load_config, hget]
    show (match jparse content with
          | some j => (some j, false)
          | none => (none, true) : Option JVal × Bool) = (none, true)
    rw [hbad]

/-- C3 witness for the amended statement: a concrete corrupt file loads as
(None, error reported). -/
theorem claim_C3_amended_load_absent_vs_corrupt_witness :
    load_config "foundation_configs"
        [(("foundation_configs", "hierarchy_rules_config.json"), "oops".data)]
        "hierarchy_rules" = (none, true) :=
  (claim_C3_amended_load_absent_vs_corrupt "foundation_configs"
      [(("foundation_configs", "hierarchy_rules_config.json"), "oops".data)]
      "hierarchy_rules").2.2 "oops".data rfl rfl

/-- C4 counterexample: a write failure part-way through a save leaves a
truncated document behind — mode "w" has already destroyed the old content,
so the stored bytes are neither the new serialisation nor the old one. -/
theorem claim_C4_counterexample_truncated_save :
    alGet ("foundation_configs", configFileName "hierarchy_rules")
        (save_foundation_config
          (save_foundation_config [] "hierarchy_rules" (.str "old") .ok).fs
          "hierarchy_rules" (.str "new") (.writeFail 2)).fs
      = some ['"', 'n']
    ∧ ['"', 'n'] ≠ serVal 0 (.str "new")
    ∧ ['"', 'n'] ≠ serVal 0 (.str "old") := ⟨rfl, by decide, by decide⟩

/-- C4 amended: a successful save replaces the stored document wholesale
with the exact serialisation; a failed open leaves the file system
unchanged; but a failed write leaves the truncating prefix actually written
— the save is NOT atomic from the caller's point of view. -/
theorem claim_C4_amended_save_semantics (dir : String) (t : String) (d : JVal)
    (fs : FS) :
    alGet (dir, configFileName t) (save_config dir fs t d .ok).fs
        = some (serVal 0 d)
    ∧ (save_config dir fs t d .openFail).fs = fs
    ∧ ∀ k, alGet (dir, configFileName t) (save_config dir fs t d (.writeFail k)).fs
        = some ((serVal 0 d).take k) := by
  refine ⟨?_, rfl, fun k => ?_⟩
  · rw [save_ok_fs]
    exact alGet_alPut_same _ _ _
  · show alGet (dir, configFileName t)
        (alPut (dir, configFileName t) ((serVal 0 d).take k) fs) = _
    exact alGet_alPut_same _ _ _

/-- C9: save_*_config returns None whatever happens inside the try block —
success, failed open or failed write — so the call's result never lets the
caller distinguish a successful save from a failed one. -/
theorem claim_C9_save_returns_none (dir : String) (t : String) (d : JVal)
    (fs : FS) (fault : SaveFault) :
    (save_config dir fs t d fault).ret = none
    ∧ (save_config dir fs t d fault).ret = (save_config dir fs t d .ok).ret := by
  cases fault with
  | ok => exact ⟨rfl, rfl⟩
  | openFail => exact ⟨rfl, rfl⟩
  | writeFail k => exact ⟨rfl, rfl⟩

/-- C5 counterexample: a category whose saved document is an empty mapping
is present at backup time, but the restore loop's truthiness test skips it,
so after backup, delete-all and restore the category is gone — its
pre-delete value (the empty mapping) is NOT restored. -/
theorem claim_C5_counterexample_empty_doc_not_restored :
    (load_foundation_config
        (foundation_restore
          (delete_all_configs "foundation_configs"
            (save_foundation_config [] "hierarchy_rules" (.obj []) .ok).fs)
          (foundation_backup_text
            (save_foundation_config [] "hierarchy_rules" (.obj []) .ok).fs
            "ts")).1
        "hierarchy_rules").1 = none
    ∧ (load_foundation_config
        (save_foundation_config [] "hierarchy_rules" (.obj []) .ok).fs
        "hierarchy_rules").1 = some (.obj []) := ⟨rfl, rfl⟩

/-- C5 amended: backup, delete-all, restore does round-trip every saved
category whose document is truthy (Python-non-falsy), for both panels; the
counterexample shows the truthiness proviso cannot be dropped. -/
theorem claim_C5_amended_backup_restore (fs fsP : FS) (ts : String)
    (dh dv dp : JVal)
    (hwh : jwf dh = true) (hth : truthy dh = true)
    (hwv : jwf dv = true) (htv : truthy dv = true)
    (hwp : jwf dp = true) (htp : truthy dp = true)
    (fs1 : FS)
    (hfs1 : fs1 = (save_foundation_config
        (save_foundation_config
          (save_foundation_config fs "hierarchy_rules" dh .ok).fs
          "validation_rules" dv .ok).fs
        "processing_settings" dp .ok).fs)
    (fs2 : FS)
    (hfs2 : fs2 = (foundation_restore
        (delete_all_configs "foundation_configs" fs1)
        (foundation_backup_text fs1 ts)).1)
    (ps1 : FS)
    (hps1 : ps1 = (save_payroll_config
        (save_payroll_config
          (save_payroll_config fsP "wage_types" dh .ok).fs
          "validation_rules" dv .ok).fs
        "processing_settings" dp .ok).fs)
    (ps2 : FS)
    (hps2 : ps2 = (payroll_restore
        (delete_all_configs "payroll_configs" ps1)
        (payroll_backup_text ps1 ts)).1) :
    load_foundation_config fs2 "hierarchy_rules" = (some dh, false)
    ∧ load_foundation_config fs2 "validation_rules" = (some dv, false)
    ∧ load_foundation_config fs2 "processing_settings" = (some dp, false)
    ∧ load_payroll_config ps2 "wage_types" = (some dh, false)
    ∧ load_payroll_config ps2 "validation_rules" = (some dv, false)
    ∧ load_payroll_config ps2 "processing_settings" = (some dp, false) := by
  have hfs1' : fs1
      = alPut ("foundation_configs", configFileName "processing_settings")
          (serVal 0 dp)
          (alPut ("foundation_configs", configFileName "validation_rules")
            (serVal 0 dv)
            (alPut ("foundation_configs", configFileName "hierarchy_rules")
              (serVal 0 dh) fs)) := hfs1
  have lh : load_foundation_config fs1 "hierarchy_rules" = (some dh, false) := by
    show load_config "foundation_configs" fs1 "hierarchy_rules" = _
    rw [hfs1', load_alPut_ne _ _ _ _ _ (by decide),
      load_alPut_ne _ _ _ _ _ (by decide)]
    exact load_saved _ _ _ _ hwh
  have lv : load_foundation_config fs1 "validation_rules" = (some dv, false) := by
    show load_config "foundation_configs" fs1 "validation_rules" = _
    rw [hfs1', load_alPut_ne _ _ _ _ _ (by decide)]
    exact load_saved _ _ _ _ hwv
  have lp : load_foundation_config fs1 "processing_settings" = (some dp, false) := by
    show load_config "foundation_configs" fs1 "processing_settings" = _
    rw [hfs1']
    exact load_saved _ _ _ _ hwp
  have hbd : foundation_backup_data fs1 ts
      = .obj [("hierarchy_rules", dh), ("validation_rules", dv),
          ("processing_settings", dp), ("backup_timestamp", .str ts)] := by
    rw [foundation_backup_data, lh, lv, lp]
    rfl
  have hwfE4 : jwfE [("hierarchy_rules", dh), ("validation_rules", dv),
      ("processing_settings", dp), ("backup_timestamp", .str ts)] = true := by
    show (jwf dh && (jwf dv && (jwf dp && (jwf (.str ts) && true)))) = true
    rw [hwh, hwv, hwp]
    rfl
  have hwfb : jwf (.obj [("hierarchy_rules", dh), ("validation_rules", dv),
      ("processing_settings", dp), ("backup_timestamp", .str ts)]) = true := by
    show (decide (List.Nodup (List.map Prod.fst
        [("hierarchy_rules", dh), ("validation_rules", dv),
         ("processing_settings", dp), ("backup_timestamp", .str ts)]))
      && jwfE [("hierarchy_rules", dh), ("validation_rules", dv),
         ("processing_settings", dp), ("backup_timestamp", .str ts)]) = true
    rw [hwfE4, Bool.and_true]
    rfl
  have hparse : jparse (foundation_backup_text fs1 ts)
      = some (.obj [("hierarchy_rules", dh), ("validation_rules", dv),
          ("processing_settings", dp), ("backup_timestamp", .str ts)]) := by
    rw [foundation_backup_text, hbd]
    exact jparse_serVal _ hwfb
  have hfs2' : fs2
      = alPut ("foundation_configs", configFileName "processing_settings")
          (serVal 0 dp)
          (alPut ("foundation_configs", configFileName "validation_rules")
            (serVal 0 dv)
            (alPut ("foundation_configs", configFileName "hierarchy_rules")
              (serVal 0 dh)
              (delete_all_configs "foundation_configs" fs1))) := by
    rw [hfs2, foundation_restore_saved _ dh dv dp ts hth htv htp _ hparse]
  have hps1' : ps1
      = alPut ("payroll_configs", configFileName "processing_settings")
          (serVal 0 dp)
          (alPut ("payroll_configs", configFileName "validation_rules")
            (serVal 0 dv)
            (alPut ("payroll_configs", configFileName "wage_types")
              (serVal 0 dh) fsP)) := hps1
  have lw2 : load_payroll_config ps1 "wage_types" = (some dh, false) := by
    show load_config "payroll_configs" ps1 "wage_types" = _
    rw [hps1', load_alPut_ne _ _ _ _ _ (by decide),
      load_alPut_ne _ _ _ _ _ (by decide)]
    exact load_saved _ _ _ _ hwh
  have lv2 : load_payroll_config ps1 "validation_rules" = (some dv, false) := by
    show load_config "payroll_configs" ps1 "validation_rules" = _
    rw [hps1', load_alPut_ne _ _ _ _ _ (by decide)]
    exact load_saved _ _ _ _ hwv
  have lp2 : load_payroll_config ps1 "processing_settings" = (some dp, false) := by
    show load_config "payroll_configs" ps1 "processing_settings" = _
    rw [hps1']
    exact load_saved _ _ _ _ hwp
  have hpbd : payroll_backup_data ps1 ts
      = .obj [("wage_types", dh), ("validation_rules", dv),
          ("processing_settings", dp), ("backup_timestamp", .str ts),
          ("system", .str "payroll")] := by
    rw [payroll_backup_data, lw2, lv2, lp2]
    rfl
  have hwfE5 : jwfE [("wage_types", dh), ("validation_rules", dv),
      ("processing_settings", dp), ("backup_timestamp", .str ts),
      ("system", .str "payroll")] = true := by
    show (jwf dh && (jwf dv && (jwf dp && (jwf (.str ts)
      && (jwf (.str "payroll") && true))))) = true
    rw [hwh, hwv, hwp]
    rfl
  have hwfpb : jwf (.obj [("wage_types", dh), ("validation_rules", dv),
      ("processing_settings", dp), ("backup_timestamp", .str ts),
      ("system", .str "payroll")]) = true := by
    show (decide (List.Nodup (List.map Prod.fst
        [("wage_types", dh), ("validation_rules", dv),
         ("processing_settings", dp), ("backup_timestamp", .str ts),
         ("system", .str "payroll")]))
      && jwfE [("wage_types", dh), ("validation_rules", dv),
         ("processing_settings", dp), ("backup_timestamp", .str ts),
         ("system", .str "payroll")]) = true
    rw [hwfE5, Bool.and_true]
    rfl
  have hpparse : jparse (payroll_backup_text ps1 ts)
      = some (.obj [("wage_types", dh), ("validation_rules", dv),
          ("processing_settings", dp), ("backup_timestamp", .str ts),
          ("system", .str "payroll")]) := by
    rw [payroll_backup_text, hpbd]
    exact jparse_serVal _ hwfpb
  have hps2' : ps2
      = alPut ("payroll_configs", configFileName "processing_settings")
          (serVal 0 dp)
          (alPut ("payroll_configs", configFileName "validation_rules")
            (serVal 0 dv)
            (alPut ("payroll_configs", configFileName "wage_types")
              (serVal 0 dh)
              (delete_all_configs "payroll_configs" ps1))) := by
    rw [hps2, payroll_restore_saved _ dh dv dp ts hth htv htp _ hpparse]
  refine ⟨?_, ?_, ?_, ?_, ?_, ?_⟩
  · show load_config "foundation_configs" fs2 "hierarchy_rules" = _
    rw [hfs2', load_alPut_ne _ _ _ _ _ (by decide),
      load_alPut_ne _ _ _ _ _ (by decide)]
    exact load_saved _ _ _ _ hwh
  · show load_config "foundation_configs" fs2 "validation_rules" = _
    rw [hfs2', load_alPut_ne _ _ _ _ _ (by decide)]
    exact load_saved _ _ _ _ hwv
  · show load_config "foundation_configs" fs2 "processing_settings" = _
    rw [hfs2']
    exact load_saved _ _ _ _ hwp
  · show load_config "payroll_configs" ps2 "wage_types" = _
    rw [hps2', load_alPut_ne _ _ _ _ _ (by decide),
      load_alPut_ne _ _ _ _ _ (by decide)]
    exact load_saved _ _ _ _ hwh
  · show load_config "payroll_configs" ps2 "validation_rules" = _
    rw [hps2', load_alPut_ne _ _ _ _ _ (by decide)]
    exact load_saved _ _ _ _ hwv
  · show load_config "payroll_configs" ps2 "processing_settings" = _
    rw [hps2']
    exact load_saved _ _ _ _ hwp

/-- C5 witness for the amended statement: with three concretely saved truthy
documents, the restored foundation store again holds the hierarchy_rules
document. -/
theorem claim_C5_amended_backup_restore_witness :
    load_foundation_config
        (foundation_restore
          (delete_all_configs "foundation_configs"
            (save_foundation_config
              (save_foundation_config
                (save_foundation_config [] "hierarchy_rules" (.num 1) .ok).fs
                "validation_rules" (.str "x") .ok).fs
              "processing_settings" (.bool true) .ok).fs)
          (foundation_backup_text
            (save_foundation_config
              (save_foundation_config
                (save_foundation_config [] "hierarchy_rules" (.num 1) .ok).fs
                "validation_rules" (.str "x") .ok).fs
              "processing_settings" (.bool true) .ok).fs "ts")).1
        "hierarchy_rules"
      = (some (.num 1), false) :=
  (claim_C5_amended_backup_restore [] [] "ts" (.num 1) (.str "x") (.bool true)
    (by decide) (by decide) (by decide) (by decide) (by decide) (by decide)
    _ rfl _ rfl _ rfl _ rfl).1

/-- C6: authenticating with whatever credential get_password resolves
succeeds and leaves the gate authenticated, for every gate, secret source
and session state; concretely, with no secret source available at all, the
foundation gate's resolved credential is the default "admin123". -/
theorem claim_C6_authenticate_with_resolved_credential (a : AdminAuth)
    (secrets : Secrets) (session : Session) :
    (a.authenticate secrets session (a.get_password secrets)).1 = true
    ∧ a.is_authenticated
        (a.authenticate secrets session (a.get_password secrets)).2 = true
    ∧ create_foundation_admin.get_password none = "admin123" := by
  refine ⟨?_, ?_, rfl⟩
  · rw [AdminAuth.authenticate, if_pos rfl]
  · rw [AdminAuth.authenticate, if_pos rfl]
    show (alGet a.session_key (alPut a.session_key true session)).getD false = true
    rw [alGet_alPut_same]
    rfl

/-- C7: authenticating with a secret different from the resolved credential
returns false and leaves the session state exactly as it was — in particular
the gate's own flag, hence is_authenticated, is unchanged, and no exception
is involved (the model is a total function). -/
theorem claim_C7_authenticate_mismatch (a : AdminAuth) (secrets : Secrets)
    (session : Session) (x : String) (hne : x ≠ a.get_password secrets) :
    a.authenticate secrets session x = (false, session) := by
  rw [AdminAuth.authenticate, if_neg hne]

/-- C7 witness: a wrong password against an already-authenticated foundation
gate returns false and does not log the session out. -/
theorem claim_C7_authenticate_mismatch_witness :
    create_foundation_admin.authenticate none
        [("foundation_admin_authenticated", true)] "wrong"
      = (false, [("foundation_admin_authenticated", true)]) :=
  claim_C7_authenticate_mismatch create_foundation_admin none
    [("foundation_admin_authenticated", true)] "wrong" (by decide)

/-- C8: authenticating one gate never changes another gate's authentication
state, for any two gates whose (lowercased) system names differ, whatever
the attempted secret and whether or not the attempt succeeds. -/
theorem claim_C8_no_cross_subsystem_leakage (nA nB pwA pwB : String)
    (hne : pyLower nA ≠ pyLower nB) (secrets : Secrets) (session : Session)
    (x : String) :
    (adminAuthInit nB pwB).is_authenticated
        ((adminAuthInit nA pwA).authenticate secrets session x).2
      = (adminAuthInit nB pwB).is_authenticated session := by
  rw [AdminAuth.authenticate]
  by_cases h : x = (adminAuthInit nA pwA).get_password secrets
  · rw [if_pos h]
    show (alGet (pyLower nB ++ "_admin_authenticated")
        (alPut (pyLower nA ++ "_admin_authenticated") true session)).getD false
      = (alGet (pyLower nB ++ "_admin_authenticated") session).getD false
    rw [alGet_alPut_ne]
    intro he
    exact hne (string_append_right_cancel he).symm
  · rw [if_neg h]

/-- C8 witness: a successful payroll authentication does not change the
foundation gate's authentication state. -/
theorem claim_C8_no_cross_subsystem_leakage_witness :
    (adminAuthInit "foundation" "admin123").is_authenticated
        ((adminAuthInit "payroll" "admin123").authenticate none [] "admin123").2
      = (adminAuthInit "foundation" "admin123").is_authenticated [] :=
  claim_C8_no_cross_subsystem_leakage "payroll" "foundation" "admin123"
    "admin123" (by decide) none [] "admin123"

/-- C10: SessionManager operates on exactly the fixed set employee,
foundation, payroll — the report lists precisely those three; a global
logout sets exactly those three flags to false and leaves every other
session-state entry untouched; a gate with any other system name keeps its
flag across a global logout and never appears in the report. -/
theorem claim_C10_session_manager_fixed_set (session : Session)
    (name pw : String)
    (h : pyLower name ∉ (["employee", "foundation", "payroll"] : List String)) :
    (get_active_admin_sessions session).map Prod.fst
        = ["employee", "foundation", "payroll"]
    ∧ (∀ s : String, s ∈ (["employee", "foundation", "payroll"] : List String) →
        alGet (s ++ "_admin_authenticated") (logout_all_systems session)
          = some false)
    ∧ (∀ k : String, k ∉ (["employee_admin_authenticated",
          "foundation_admin_authenticated",
          "payroll_admin_authenticated"] : List String) →
        alGet k (logout_all_systems session) = alGet k session)
    ∧ (adminAuthInit name pw).is_authenticated (logout_all_systems session)
        = (adminAuthInit name pw).is_authenticated session
    ∧ pyLower name ∉ (get_active_admin_sessions session).map Prod.fst := by
  have hlao : logout_all_systems session
      = alPut "payroll_admin_authenticated" false
          (alPut "foundation_admin_authenticated" false
            (alPut "employee_admin_authenticated" false session)) := rfl
  have hnk : ∀ s : String,
      pyLower name ++ "_admin_authenticated" = s ++ "_admin_authenticated" →
      pyLower name = s := fun s he => string_append_right_cancel he
  refine ⟨rfl, ?_, ?_, ?_, ?_⟩
  · intro s hs
    fin_cases hs
    · show alGet "employee_admin_authenticated" (logout_all_systems session)
        = some false
      rw [hlao, alGet_alPut_ne _ _ (by decide), alGet_alPut_ne _ _ (by decide),
        alGet_alPut_same]
    · show alGet "foundation_admin_authenticated" (logout_all_systems session)
        = some false
      rw [hlao, alGet_alPut_ne _ _ (by decide), alGet_alPut_same]
    · show alGet "payroll_admin_authenticated" (logout_all_systems session)
        = some false
      rw [hlao, alGet_alPut_same]
  · intro k hk
    have h3 : k ≠ "employee_admin_authenticated"
        ∧ k ≠ "foundation_admin_authenticated"
        ∧ k ≠ "payroll_admin_authenticated" := by
      simpa [not_or] using hk
    rw [hlao, alGet_alPut_ne _ _ h3.2.2, alGet_alPut_ne _ _ h3.2.1,
      alGet_alPut_ne _ _ h3.1]
  · show (alGet (pyLower name ++ "_admin_authenticated")
        (logout_all_systems session)).getD false
      = (alGet (pyLower name ++ "_admin_authenticated") session).getD false
    have hne1 : pyLower name ++ "_admin_authenticated"
        ≠ "employee_admin_authenticated" := by
      intro he
      apply h
      rw [hnk "employee" he]
      simp
    have hne2 : pyLower name ++ "_admin_authenticated"
        ≠ "foundation_admin_authenticated" := by
      intro he
      apply h
      rw [hnk "foundation" he]
      simp
    have hne3 : pyLower name ++ "_admin_authenticated"
        ≠ "payroll_admin_authenticated" := by
      intro he
      apply h
      rw [hnk "payroll" he]
      simp
    rw [hlao, alGet_alPut_ne _ _ hne3, alGet_alPut_ne _ _ hne2,
      alGet_alPut_ne _ _ hne1]
  · have hmap : (get_active_admin_sessions session).map Prod.fst
        = ["employee", "foundation", "payroll"] := rfl
    rw [hmap]
    exact h

/-- C10 witness: a "demo" gate's authentication flag survives a global
logout untouched. -/
theorem claim_C10_session_manager_fixed_set_witness :
    (adminAuthInit "demo" "x").is_authenticated
        (logout_all_systems [("demo_admin_authenticated", true),
          ("employee_admin_authenticated", true)])
      = (adminAuthInit "demo" "x").is_authenticated
          [("demo_admin_authenticated", true),
           ("employee_admin_authenticated", true)] :=
  (claim_C10_session_manager_fixed_set
      [("demo_admin_authenticated", true), ("employee_admin_authenticated", true)]
      "demo" "x" (by decide)).2.2.2.1

end AdminSuite
